import Mathlib

/-!
# gltext: font loading, printing and release

A shallow embedding of `font.go` (`LoadFontData`, `makeList`, `pow2`,
`Release`, `Printf`, `Scale`, `Charset`) and of the bitmap glyph table of
`bitmap_test.go` (`glyphData`, `loadGlyphs`, `fontImage`).

Conventions of the embedding.

* Go `int32` (`rune`, `scale`, glyph bounds) and Go `int` / `uint` (taken as
  64 bits wide) are `Int` / `Nat` with explicit wraparound (`wrap32`,
  `wrap64`, `% 2 ^ 64`).
* A Go function that may panic returns an `Outcome`; the OpenGL calls it
  issued up to that point are collected, in program order, in a log.
* The `for` loop of `LoadFontData` takes fuel, since an `int32` counter can
  wrap around; running out of fuel is `none`.
* The external libraries (TrueType parsing, glyph loading and drawing, the
  image buffer, `math.Log2`, OpenGL handle generation, the viewport query)
  are inputs: `TTF`, `Env`.
* `float32(z)` of an `int32` is the rounding of `z` to 24 significant bits,
  ties to even (`roundF32`), held as the integer it denotes; a `float64`
  result is an `F64`.
-/

namespace gltext

/-! ## Machine integers -/

/-- Two's complement wraparound of Go `int32` arithmetic. -/
def wrap32 (z : Int) : Int := (z + 2 ^ 31) % 2 ^ 32 - 2 ^ 31

/-- Two's complement wraparound of Go `int` arithmetic (64 bits). -/
def wrap64 (z : Int) : Int := (z + 2 ^ 63) % 2 ^ 64 - 2 ^ 63

/-! ## Data model -/

/-- Modelled from the spec: the declaration of `Charset` used by `font.go` is
not among the sources.  `font.go` reads the rune bounds `Low` and `High` and
calls `Len()`; `Len` is the value that call returns (a Go `int`). -/
structure Charset where
  Low : Int
  High : Int
  Len : Int
deriving DecidableEq, Repr

/-- A `float32` argument that is only passed through to OpenGL, as its bit
pattern. -/
structure Float32 where
  bits : Nat
deriving DecidableEq, Repr

/-- The `Font` struct.  `charset = none` is the nil pointer; the nil slice
is the empty list. -/
structure Font where
  textures : List Nat
  charset : Option Charset
  scale : Int
  listbase : Nat
deriving DecidableEq, Repr

/-- Glyph bounding box `gb.B` after `gb.Load` (`int32` fields). -/
structure Bounds where
  XMin : Int
  YMin : Int
  XMax : Int
  YMax : Int
deriving DecidableEq, Repr

/-- A parsed TrueType font, as far as `makeList` uses it: `ttf.Index`,
`gb.Load(ttf, scale, glyph, nil)` followed by reading `gb.B`,
`ttf.HMetric(scale, glyph).AdvanceWidth`, and the freetype context that
draws a rune of the font into an image. -/
structure TTF (ε : Type) where
  index : Int → Nat
  load : Int → Nat → Except ε Bounds
  advanceWidth : Int → Nat → Int
  /-- Whether lines 156-170 run to their end for a `texWidth` x `texHeight`
  image whose size can be asked for: the buffer is allocated and rune `r` is
  drawn into it at scale `scale`: `draws scale texWidth texHeight r`. -/
  draws : Int → Int → Int → Int → Bool

/-- What the environment answers: `truetype.Parse`, the texture names
`gl.GenTextures` writes into slot `i`, the base `gl.GenLists n` returns, the
four integers of `gl.GetIntegerv(gl.VIEWPORT, ...)`, and the `uint` that
`uint(math.Log2(float64(n)))` yields for the `int` `n`. -/
structure Env (ε : Type) where
  parse : List Nat → Except ε (TTF ε)
  texName : Nat → Nat
  genLists : Int → Nat
  viewport : Int × Int × Int × Int
  log2 : Int → Nat

/-- A `float64` result: a rational value, an infinity or not-a-number. -/
inductive F64 where
  | val (q : ℚ)
  | posInf
  | negInf
  | nan
deriving DecidableEq, Repr

/-- The OpenGL calls of `font.go`, in the granularity of its blocks. -/
inductive GLCall where
  /-- Line 57: `gl.GenTextures(font.textures)` for a slice of length `n`. -/
  | genTextures (n : Nat)
  /-- Line 58: `gl.GenLists(n)`. -/
  | genLists (n : Int)
  /-- Line 79: `gl.DeleteTextures(f.textures)`. -/
  | deleteTextures (names : List Nat)
  /-- Line 80: `gl.DeleteLists(base, n)`. -/
  | deleteLists (base : Nat) (n : Int)
  /-- Lines 185 and 195: `f.textures[tex].Bind(gl.TEXTURE_2D)`. -/
  | bindTexture (name : Nat)
  /-- Lines 187-190: the two `TexParameteri` calls and `TexImage2D` with
  the given width and height. -/
  | texImage2D (texWidth texHeight : Int)
  /-- Line 194: `gl.NewList(id, gl.COMPILE)`. -/
  | newList (id : Nat)
  /-- Lines 196-215: translate by the bearing and draw the quad of the given
  size with texture coordinates `x`, `y`. -/
  | quad (glyphLeft glyphTop glyphWidth glyphHeight : Int) (x y : F64)
  /-- Lines 218-219: translate by `metric.AdvanceWidth`. -/
  | advance (w : Int)
  /-- Line 221: `gl.EndList()`. -/
  | endList
  /-- Lines 97-113: viewport query, orthographic projection, render state. -/
  | setup (vp : Int × Int × Int × Int)
  /-- Line 115: `gl.ListBase(f.listbase)`. -/
  | listBase (base : Nat)
  /-- Lines 117-123: `gl.Translatef(x, float32(vp[3]) - y - float32(scale), 0)`
  between the matrix calls. -/
  | place (x y : Float32) (vpTop scale : Int)
  /-- Line 124: `gl.CallLists(n, gl.UNSIGNED_INT, indices)`. -/
  | callLists (n : Nat) (indices : List Int)
  /-- Lines 125-131: restore matrices and attributes. -/
  | restore
deriving DecidableEq, Repr

/-- Run-time panics of the modelled code. -/
inductive Panic where
  | nilDereference
  | indexOutOfRange
  | negativeLen
  /-- Lines 155-170 did not run to their end: the temporary image could not
  be allocated or drawn (a panic or a fatal error of the run time). -/
  | imageFailure
deriving DecidableEq, Repr

/-- How a call ends: it returns a value or it panics. -/
inductive Outcome (α : Type) where
  | ret (a : α)
  | panic (p : Panic)
deriving DecidableEq, Repr

/-- A finished call: the OpenGL calls it made and how it ended. -/
structure Run (α : Type) where
  log : List GLCall
  res : Outcome α
deriving DecidableEq, Repr

/-! ## font.go -/

/-- The multiple of `ulp` nearest to `a`, the even multiple on a tie. -/
def roundNearestEven (a ulp : Nat) : Nat :=
  let q := a / ulp
  let r := a % ulp
  if 2 * r < ulp then q * ulp
  else if 2 * r = ulp ∧ q % 2 = 0 then q * ulp
  else (q + 1) * ulp

/-- Lines 146-149 and 219: the conversion `float32(z)` of an `int32`, as the
integer the result denotes.  A magnitude below `2 ^ 24` is exact; above, the
24 leading bits are kept, rounded to nearest, ties to even. -/
def roundF32 (z : Int) : Int :=
  if z.natAbs < 2 ^ 24 then z
  else z.sign * ((roundNearestEven z.natAbs (2 ^ (Nat.log2 z.natAbs - 23)) : Nat) : Int)

/-- Lines 148-149: `float32(hi - lo)` for two `int32` bounds, the glyph
width or height; lines 152-153 convert it back with `int(...)`, which is
exact. -/
def glyphSize (lo hi : Int) : Int := roundF32 (wrap32 (hi - lo))

/-- Line 148: `glyphWidth := float32(gb.B.XMax - gb.B.XMin)`. -/
def glyphWidth (b : Bounds) : Int := glyphSize b.XMin b.XMax

/-- Line 149: `glyphHeight := float32(gb.B.YMax - gb.B.YMin)`. -/
def glyphHeight (b : Bounds) : Int := glyphSize b.YMin b.YMax

/-- The shift `1 << k` of the 64-bit `int` 1 by the `uint` count `k`: it
wraps around at `k = 63` and is 0 from `k = 64` on. -/
def shiftLeftOne (k : Nat) : Int := if k < 64 then wrap64 (2 ^ k) else 0

/-- Line 134, `func pow2(n int) int { return 1 << (uint(math.Log2(float64(n))) + 1) }`:
the count is the `uint` the math library yields for `n`, plus one in `uint`
arithmetic. -/
def pow2 {ε : Type} (env : Env ε) (n : Int) : Int :=
  shiftLeftOne ((env.log2 n + 1) % 2 ^ 64)

/-- Lines 200-201: `float64(glyphDim) / float64(texDim)`.  Both operands are
exact and `texDim`, a result of `pow2`, is zero or a power of two up to sign,
so a finite quotient is exact. -/
def texCoord (glyphDim texDim : Int) : F64 :=
  if texDim = 0 then
    if glyphDim = 0 then .nan else if 0 < glyphDim then .posInf else .negInf
  else .val ((glyphDim : ℚ) / (texDim : ℚ))

/-- Lines 156-157: the number of bytes, one per pixel, of the buffer that
`image.NewGray(image.Rect(0, 0, texWidth, texHeight))` asks for.
`image.Rect` orders its corners, so the extents are the magnitudes. -/
def imageBytes (texWidth texHeight : Int) : Nat :=
  texWidth.natAbs * texHeight.natAbs

/-- Whether lines 155-170 run to their end for rune `r`.  `image.NewGray`
panics when an extent or the byte count does not fit a non-negative `int`,
and a slice of more than `2 ^ 48` bytes cannot be made; for a smaller buffer
the allocation and the drawing are the environment's. -/
def renders {ε : Type} (ttf : TTF ε) (scale texWidth texHeight r : Int) : Bool :=
  decide (texWidth.natAbs < 2 ^ 63) && decide (texHeight.natAbs < 2 ^ 63) &&
    decide (imageBytes texWidth texHeight ≤ 2 ^ 48) && ttf.draws scale texWidth texHeight r

/-- Lines 94 and 182: the `int32` difference `r - f.charset.Low`. -/
def texIndex (cs : Charset) (r : Int) : Int := wrap32 (r - cs.Low)

/-- The OpenGL calls of `makeList` (lines 185-221) for glyph bounds `b` of
rune `r`, once the index `tex` is known to be in range. -/
def glyphCalls {ε : Type} (env : Env ε) (ttf : TTF ε) (f : Font) (b : Bounds) (r : Int)
    (tex : Nat) : List GLCall :=
  let texWidth := pow2 env (glyphWidth b)
  let texHeight := pow2 env (glyphHeight b)
  [ GLCall.bindTexture (f.textures.getD tex 0),
    GLCall.texImage2D texWidth texHeight,
    GLCall.newList ((f.listbase + tex) % 2 ^ 64),
    GLCall.bindTexture (f.textures.getD tex 0),
    GLCall.quad (roundF32 b.XMin) (roundF32 b.YMin) (glyphWidth b) (glyphHeight b)
      (texCoord (glyphWidth b) texWidth) (texCoord (glyphHeight b) texHeight),
    GLCall.advance (roundF32 (ttf.advanceWidth f.scale (ttf.index r))),
    GLCall.endList ]

/-- Lines 137-223, `func (f *Font) makeList(ttf, gb, r) (err error)`: the
value returned is the font after the call together with `err` (`none` is the
nil error).  The block of lines 172-178, which writes the image to a file
and ignores failure, makes no OpenGL call and is left out. -/
def makeList {ε : Type} (env : Env ε) (ttf : TTF ε) (f : Font) (r : Int) :
    Run (Font × Option ε) :=
  match ttf.load f.scale (ttf.index r) with
  | .error e => ⟨[], .ret (f, some e)⟩
  | .ok b =>
    if renders ttf f.scale (pow2 env (glyphWidth b)) (pow2 env (glyphHeight b)) r = true then
      match f.charset with
      | none => ⟨[], .panic .nilDereference⟩
      | some cs =>
        let tex := texIndex cs r
        if 0 ≤ tex ∧ tex < f.textures.length then
          ⟨glyphCalls env ttf f b r tex.toNat, .ret (f, none)⟩
        else ⟨[], .panic .indexOutOfRange⟩
    else ⟨[], .panic .imageFailure⟩

/-- The loop `for r := cs.Low; r <= cs.High; r++` of `LoadFontData` from
counter value `r` on, with the log so far; `none` when the fuel runs out. -/
def loadLoop {ε : Type} (env : Env ε) (ttf : TTF ε) (cs : Charset) :
    Nat → Int → Font → List GLCall → Option (Run (Option Font × Option ε))
  | 0, _, _, _ => none
  | fuel + 1, r, f, log =>
    if r ≤ cs.High then
      match makeList env ttf f r with
      | ⟨calls, .panic p⟩ => some ⟨log ++ calls, .panic p⟩
      | ⟨calls, .ret (g, some e)⟩ => some ⟨log ++ calls, .ret (some g, some e)⟩
      | ⟨calls, .ret (g, none)⟩ => loadLoop env ttf cs fuel (wrap32 (r + 1)) g (log ++ calls)
    else some ⟨log, .ret (some f, none)⟩

/-- Lines 52-58 of `LoadFontData`: the font allocated before the loop, for
`cs.Len() ≥ 0`. -/
def newFont {ε : Type} (env : Env ε) (scale : Int) (cs : Charset) : Font :=
  { textures := (List.range cs.Len.toNat).map env.texName
    charset := some cs
    scale := scale
    listbase := env.genLists cs.Len }

/-- Lines 44-68, `func LoadFontData(fontData []byte, scale int32, cs *Charset)
(font *Font, err error)` for a non-nil `cs`.  The value returned is the pair
of named results `(font, err)`: `font` is nil until line 52 assigns it. -/
def LoadFontData {ε : Type} (env : Env ε) (fuel : Nat) (fontData : List Nat) (scale : Int)
    (cs : Charset) : Option (Run (Option Font × Option ε)) :=
  match env.parse fontData with
  | .error e => some ⟨[], .ret (none, some e)⟩
  | .ok ttf =>
    if cs.Len < 0 then some ⟨[], .panic .negativeLen⟩
    else
      loadLoop env ttf cs fuel cs.Low (newFont env scale cs)
        [GLCall.genTextures cs.Len.toNat, GLCall.genLists cs.Len]

/-- Line 71, `func (f *Font) Scale() int32`. -/
def Font.Scale (f : Font) : Int := f.scale

/-- Line 74, `func (f *Font) Charset() *Charset`. -/
def Font.Charset (f : Font) : Option Charset := f.charset

/-- Lines 78-85, `func (f *Font) Release()`: the value returned is the font
after the call.  `f.charset.Len()` on the nil charset is taken to be a nil
dereference. -/
def Font.Release (f : Font) : Run Font :=
  match f.charset with
  | none => ⟨[GLCall.deleteTextures f.textures], .panic .nilDereference⟩
  | some cs =>
    ⟨[GLCall.deleteTextures f.textures, GLCall.deleteLists f.listbase cs.Len],
      .ret { f with charset := none, textures := [], listbase := 0 }⟩

/-- Line 91: the runes of the formatted string,
`[]rune(fmt.Sprintf(fs, argv...))`.  The conversion yields Unicode code
points only, which is what a `Char` is. -/
def runes (s : List Char) : List Int := s.map (fun c => (c.toNat : Int))

/-- Lines 88-132, `func (f *Font) Printf(x, y float32, fs string, argv ...interface{})`,
given the formatted string `s`; the value returned is the font after the
call.  The loop body `indices[i] = r - f.charset.Low` runs once per rune, so
the nil charset is dereferenced exactly when there is a rune. -/
def Font.Printf {ε : Type} (env : Env ε) (f : Font) (x y : Float32) (s : List Char) : Run Font :=
  let finish (indices : List Int) : Run Font :=
    ⟨[GLCall.setup env.viewport, GLCall.listBase f.listbase,
      GLCall.place x y env.viewport.2.2.2 f.scale,
      GLCall.callLists indices.length indices, GLCall.restore], .ret f⟩
  match runes s with
  | [] => finish []
  | r :: rs =>
    match f.charset with
    | none => ⟨[], .panic .nilDereference⟩
    | some cs => finish ((r :: rs).map (texIndex cs))

/-! ## bitmap_test.go -/

namespace bitmap

/-- Modelled from the spec: the declaration of `Glyph` is not among the
sources.  The spec gives the record of integers x, y, width, height, advance:
a sub-rectangle of the source bitmap and the cursor advance; the literals of
`glyphData` list the fields in this order. -/
structure Glyph where
  X : Int
  Y : Int
  Width : Int
  Height : Int
  Advance : Int
deriving DecidableEq, Repr

/-- Modelled from the spec: the declaration of the `Charset` of
`bitmap_test.go`, an ordered sequence of `Glyph` made by `make` and filled by
`copy`, is not among the sources. -/
abbrev Charset := List Glyph

/-- Modelled from the spec: the method `Charset.Scale` is not among the
sources.  In the spec `Scale(factor)` multiplies every glyph's offset, size and
advance by `factor`, a positive integer, in place. -/
def Charset.Scale (cs : Charset) (factor : Int) : Charset :=
  cs.map (fun g =>
    { X := g.X * factor
      Y := g.Y * factor
      Width := g.Width * factor
      Height := g.Height * factor
      Advance := g.Advance * factor })

/-- Lines 69-106: `glyphData` holds glyph descriptors for `fontImage`. -/
def glyphData : List Glyph := [
  Glyph.mk 0 0 4 8 4, Glyph.mk 4 0 4 8 4, Glyph.mk 8 0 4 8 4, Glyph.mk 12 0 4 8 4,
  Glyph.mk 16 0 4 8 4, Glyph.mk 20 0 4 8 4, Glyph.mk 24 0 4 8 4, Glyph.mk 28 0 4 8 4,
  Glyph.mk 32 0 4 8 4, Glyph.mk 36 0 4 8 4, Glyph.mk 40 0 4 8 4, Glyph.mk 44 0 4 8 4,
  Glyph.mk 48 0 4 8 4, Glyph.mk 52 0 4 8 4, Glyph.mk 56 0 4 8 4, Glyph.mk 60 0 4 8 4,
  Glyph.mk 64 0 4 8 4, Glyph.mk 68 0 4 8 4, Glyph.mk 72 0 4 8 4, Glyph.mk 76 0 4 8 4,
  Glyph.mk 80 0 4 8 4, Glyph.mk 84 0 4 8 4, Glyph.mk 88 0 4 8 4, Glyph.mk 92 0 4 8 4,
  Glyph.mk 96 0 4 8 4, Glyph.mk 100 0 4 8 4, Glyph.mk 104 0 4 8 4, Glyph.mk 108 0 4 8 4,
  Glyph.mk 112 0 4 8 4, Glyph.mk 116 0 4 8 4, Glyph.mk 120 0 4 8 4, Glyph.mk 124 0 4 8 4,
  Glyph.mk 0 8 4 8 4, Glyph.mk 4 8 4 8 4, Glyph.mk 8 8 4 8 4, Glyph.mk 12 8 4 8 4,
  Glyph.mk 16 8 4 8 4, Glyph.mk 20 8 4 8 4, Glyph.mk 24 8 4 8 4, Glyph.mk 28 8 4 8 4,
  Glyph.mk 32 8 4 8 4, Glyph.mk 36 8 4 8 4, Glyph.mk 40 8 4 8 4, Glyph.mk 44 8 4 8 4,
  Glyph.mk 48 8 4 8 4, Glyph.mk 52 8 4 8 4, Glyph.mk 56 8 4 8 4, Glyph.mk 60 8 4 8 4,
  Glyph.mk 64 8 4 8 4, Glyph.mk 68 8 4 8 4, Glyph.mk 72 8 4 8 4, Glyph.mk 76 8 4 8 4,
  Glyph.mk 80 8 4 8 4, Glyph.mk 84 8 4 8 4, Glyph.mk 88 8 4 8 4, Glyph.mk 92 8 4 8 4,
  Glyph.mk 96 8 4 8 4, Glyph.mk 100 8 4 8 4, Glyph.mk 104 8 4 8 4, Glyph.mk 108 8 4 8 4,
  Glyph.mk 112 8 4 8 4, Glyph.mk 116 8 4 8 4, Glyph.mk 120 8 4 8 4, Glyph.mk 124 8 4 8 4,
  Glyph.mk 0 16 4 8 4, Glyph.mk 4 16 4 8 4, Glyph.mk 8 16 4 8 4, Glyph.mk 12 16 4 8 4,
  Glyph.mk 16 16 4 8 4, Glyph.mk 20 16 4 8 4, Glyph.mk 24 16 4 8 4, Glyph.mk 28 16 4 8 4,
  Glyph.mk 32 16 4 8 4, Glyph.mk 36 16 4 8 4, Glyph.mk 40 16 4 8 4, Glyph.mk 44 16 4 8 4,
  Glyph.mk 48 16 4 8 4, Glyph.mk 52 16 4 8 4, Glyph.mk 56 16 4 8 4, Glyph.mk 60 16 4 8 4,
  Glyph.mk 64 16 4 8 4, Glyph.mk 68 16 4 8 4, Glyph.mk 72 16 4 8 4, Glyph.mk 76 16 4 8 4,
  Glyph.mk 80 16 4 8 4, Glyph.mk 84 16 4 8 4, Glyph.mk 88 16 4 8 4, Glyph.mk 92 16 4 8 4,
  Glyph.mk 96 16 4 8 4, Glyph.mk 100 16 4 8 4, Glyph.mk 104 16 4 8 4, Glyph.mk 108 16 4 8 4,
  Glyph.mk 112 16 4 8 4, Glyph.mk 116 16 4 8 4, Glyph.mk 120 16 4 8 4, Glyph.mk 124 16 4 8 4,
  Glyph.mk 0 24 4 8 4, Glyph.mk 4 24 4 8 4, Glyph.mk 8 24 4 8 4, Glyph.mk 12 24 4 8 4,
  Glyph.mk 16 24 4 8 4, Glyph.mk 20 24 4 8 4, Glyph.mk 24 24 4 8 4, Glyph.mk 28 24 4 8 4,
  Glyph.mk 32 24 4 8 4, Glyph.mk 36 24 4 8 4, Glyph.mk 40 24 4 8 4, Glyph.mk 44 24 4 8 4,
  Glyph.mk 48 24 4 8 4, Glyph.mk 52 24 4 8 4, Glyph.mk 56 24 4 8 4, Glyph.mk 60 24 4 8 4,
  Glyph.mk 64 24 4 8 4, Glyph.mk 68 24 4 8 4, Glyph.mk 72 24 4 8 4, Glyph.mk 76 24 4 8 4,
  Glyph.mk 80 24 4 8 4, Glyph.mk 84 24 4 8 4, Glyph.mk 88 24 4 8 4, Glyph.mk 92 24 4 8 4,
  Glyph.mk 96 24 4 8 4, Glyph.mk 100 24 4 8 4, Glyph.mk 104 24 4 8 4, Glyph.mk 108 24 4 8 4,
  Glyph.mk 112 24 4 8 4, Glyph.mk 116 24 4 8 4, Glyph.mk 120 24 4 8 4, Glyph.mk 124 24 4 8 4 ]

/-- Lines 61-67: `loadGlyphs` loads scaled glyph descriptors: a copy of
`glyphData`, scaled. -/
def loadGlyphs (scale : Int) : Charset :=
  let cs : Charset := glyphData
  cs.Scale scale

/-- Lines 108-183: `fontImage` holds raw PNG image data. -/
def fontImage : List Nat := [
  0x89, 0x50, 0x4e, 0x47, 0x0d, 0x0a, 0x1a, 0x0a, 0x00, 0x00, 0x00, 0x0d,
  0x49, 0x48, 0x44, 0x52, 0x00, 0x00, 0x00, 0x80, 0x00, 0x00, 0x00, 0x20,
  0x08, 0x06, 0x00, 0x00, 0x00, 0xda, 0x22, 0x70, 0x25, 0x00, 0x00, 0x03,
  0x29, 0x49, 0x44, 0x41, 0x54, 0x78, 0xda, 0xed, 0x5b, 0xd9, 0x72, 0xc3,
  0x30, 0x08, 0xb4, 0x34, 0xf9, 0xff, 0x5f, 0x76, 0x5f, 0xaa, 0x8e, 0x86,
  0x02, 0xbb, 0x1c, 0x4e, 0xd2, 0xc6, 0xbc, 0x38, 0xae, 0x4e, 0x10, 0x5a,
  0xc1, 0x5a, 0x3d, 0x8e, 0xe3, 0x38, 0xce, 0xf3, 0x3c, 0x8f, 0x4d, 0xe4,
  0xbb, 0x94, 0x68, 0xf9, 0xfe, 0xbe, 0x7e, 0x5b, 0x4f, 0xab, 0xaf, 0xce,
  0x72, 0x6f, 0x3e, 0x48, 0x50, 0x7f, 0x1d, 0xed, 0xbd, 0xfe, 0x4e, 0x21,
  0x56, 0x39, 0x6a, 0xb7, 0x64, 0x1e, 0xb7, 0x7c, 0xb4, 0x3c, 0x9e, 0x35,
  0x10, 0xb3, 0x4b, 0xba, 0x91, 0xc7, 0x2b, 0x47, 0x88, 0xb1, 0x64, 0x8c,
  0x31, 0x22, 0xfa, 0x8d, 0x31, 0xc6, 0xde, 0x07, 0x6a, 0x2f, 0x11, 0x81,
  0x1d, 0xaf, 0x4b, 0x46, 0x14, 0xc2, 0xa4, 0x82, 0x6c, 0xfd, 0xa5, 0xd8,
  0xfa, 0x6d, 0x19, 0x69, 0xaf, 0xcb, 0x1a, 0xbe, 0x62, 0x34, 0xb4, 0xe0,
  0x48, 0x57, 0xa9, 0x9f, 0x9c, 0x53, 0xb4, 0xbd, 0xe6, 0x08, 0x5e, 0x1f,
  0xd6, 0x7c, 0x59, 0x3d, 0x1e, 0xac, 0x97, 0xca, 0x3a, 0x5e, 0x1b, 0xad,
  0xbe, 0x36, 0x81, 0xa5, 0xbc, 0x75, 0x66, 0x45, 0x9c, 0x30, 0x5a, 0x3f,
  0xb2, 0xe0, 0xda, 0x22, 0x7b, 0x08, 0x20, 0xfb, 0xd9, 0xdb, 0x6b, 0x4f,
  0x06, 0x01, 0x2c, 0x87, 0x8a, 0x6c, 0x46, 0xad, 0xff, 0xa7, 0x1d, 0x01,
  0x96, 0x02, 0xde, 0x02, 0x68, 0xc6, 0xd0, 0x0c, 0x1b, 0xa9, 0x9f, 0x41,
  0xac, 0xa8, 0x51, 0x3d, 0x7d, 0x33, 0xce, 0x75, 0xa5, 0xdc, 0x41, 0xe0,
  0x87, 0xcb, 0xed, 0x00, 0xb7, 0x70, 0xd1, 0x32, 0xca, 0x4d, 0xa3, 0x79,
  0xb2, 0x75, 0x96, 0x45, 0xcf, 0xb4, 0x4e, 0x1d, 0x33, 0xef, 0x1a, 0x9f,
  0x21, 0xe3, 0x1a, 0xf9, 0xdb, 0x2b, 0xaf, 0xd8, 0x80, 0x8d, 0xa5, 0x60,
  0xff, 0x11, 0xe2, 0xc6, 0x22, 0x25, 0x3c, 0xa2, 0xa7, 0x62, 0xe0, 0x2e,
  0x27, 0x41, 0xfa, 0x44, 0xf4, 0xf7, 0x1c, 0x98, 0xfd, 0x3b, 0x4b, 0x8c,
  0x65, 0x52, 0x60, 0x4f, 0x1f, 0x78, 0x04, 0xac, 0xe0, 0xc4, 0x4b, 0x4b,
  0xc6, 0xb7, 0xb0, 0xa9, 0x19, 0xaa, 0xbb, 0x07, 0x77, 0x57, 0x04, 0x49,
  0x5e, 0x7f, 0x28, 0xdb, 0x61, 0xe6, 0x61, 0x65, 0x12, 0x5d, 0xa9, 0xaa,
  0xf6, 0xbe, 0x07, 0x9d, 0xd2, 0x89, 0xa5, 0x3d, 0x5b, 0xbc, 0xa9, 0x02,
  0xa1, 0x4c, 0x99, 0x85, 0x30, 0x1e, 0x0d, 0xca, 0x94, 0x67, 0x10, 0x06,
  0x21, 0x14, 0x42, 0xc0, 0xcc, 0x11, 0x13, 0xa5, 0xa6, 0x33, 0xa8, 0x97,
  0x0e, 0x02, 0x35, 0x04, 0xf0, 0x16, 0xc4, 0xcb, 0xf7, 0xa3, 0x08, 0xa4,
  0x21, 0x92, 0x86, 0x46, 0x57, 0xa6, 0x55, 0x72, 0x47, 0xa1, 0xb1, 0x58,
  0xfb, 0x64, 0xd0, 0x42, 0xb6, 0xf5, 0x1c, 0x52, 0xeb, 0x77, 0xb2, 0x79,
  0xad, 0x07, 0xe1, 0x72, 0x02, 0x2c, 0x3b, 0xe5, 0x91, 0x3a, 0x1e, 0x73,
  0x58, 0xdd, 0x05, 0x15, 0xa6, 0xb1, 0x83, 0x8e, 0x66, 0x08, 0xa5, 0x08,
  0x62, 0x68, 0x0e, 0xe9, 0x1d, 0xb3, 0x50, 0xff, 0x4a, 0x00, 0xe2, 0x05,
  0x3d, 0xd1, 0xa3, 0xa5, 0x0b, 0x02, 0x23, 0x19, 0x09, 0x73, 0xe4, 0x30,
  0x7d, 0x64, 0xc7, 0xcf, 0x1e, 0x99, 0xad, 0x59, 0xc0, 0x2d, 0x1f, 0x9c,
  0xf7, 0x5b, 0x3b, 0x82, 0x2d, 0x8f, 0xee, 0xa0, 0x6a, 0x5a, 0xc9, 0xd4,
  0xeb, 0xd4, 0x8f, 0x41, 0x8c, 0xee, 0xa7, 0x65, 0x63, 0x6f, 0x87, 0xb3,
  0x69, 0xf3, 0xd4, 0x3e, 0x4a, 0x68, 0x41, 0x09, 0x5b, 0xae, 0x05, 0x46,
  0xfb, 0x3b, 0x3a, 0xd3, 0x51, 0x90, 0x57, 0x0d, 0x52, 0xab, 0xfa, 0xc9,
  0xf2, 0x8e, 0xf9, 0xa2, 0x78, 0xcb, 0xfb, 0xd6, 0xc0, 0xa6, 0xd9, 0x96,
  0xbd, 0x67, 0x65, 0x62, 0x55, 0xc5, 0xae, 0xc8, 0xe3, 0x9f, 0x25, 0xaf,
  0x1e, 0x9f, 0xc9, 0x30, 0x18, 0x07, 0x9d, 0x51, 0xa2, 0xa1, 0x8b, 0xb8,
  0xe8, 0x66, 0xf6, 0x2a, 0x8b, 0xc3, 0x44, 0xe6, 0xbb, 0x21, 0x3b, 0xe7,
  0x2b, 0x89, 0x2e, 0x74, 0xbf, 0xa0, 0x5b, 0xa8, 0x34, 0x30, 0x73, 0x09,
  0xa4, 0x9b, 0x5d, 0xab, 0xcc, 0xa7, 0xea, 0x30, 0xe8, 0xc8, 0xab, 0x1c,
  0x51, 0x08, 0xa2, 0xaf, 0x46, 0xbb, 0xc9, 0x92, 0x19, 0xaf, 0x4a, 0x25,
  0xde, 0x2d, 0x65, 0xc9, 0x5c, 0xc0, 0xb8, 0x7a, 0x11, 0x2b, 0x0e, 0x39,
  0x19, 0x96, 0x2e, 0x0a, 0x51, 0x5e, 0x7f, 0xc8, 0x20, 0xda, 0x0d, 0x19,
  0x06, 0xa2, 0x59, 0x03, 0xa0, 0xfe, 0xaa, 0xe5, 0x8c, 0x93, 0x64, 0x36,
  0x5b, 0x17, 0x57, 0x70, 0xcb, 0x1f, 0x45, 0x9e, 0x4e, 0xbd, 0x7e, 0x39,
  0x54, 0x87, 0x37, 0x65, 0x29, 0xd2, 0x28, 0x7b, 0x55, 0xf9, 0x70, 0xf2,
  0x5f, 0x1d, 0x94, 0x65, 0x1a, 0x5d, 0x3b, 0x45, 0x16, 0xa8, 0x83, 0xa2,
  0xcc, 0xee, 0xb4, 0x77, 0xa4, 0x36, 0x9f, 0x3d, 0x7e, 0xf5, 0x3e, 0x85,
  0x9a, 0x05, 0xc8, 0xef, 0xc9, 0xd9, 0x01, 0x59, 0x34, 0x40, 0x37, 0x66,
  0xa2, 0x4a, 0x77, 0x33, 0x81, 0xa8, 0xfd, 0x95, 0xcc, 0x1f, 0xc3, 0x8c,
  0x46, 0x33, 0x1c, 0xeb, 0x83, 0xd6, 0xb4, 0x98, 0x27, 0x96, 0x09, 0xb3,
  0x02, 0x42, 0x4f, 0x21, 0x74, 0x01, 0xa4, 0x7b, 0x87, 0x64, 0x98, 0x3e,
  0xd4, 0x9e, 0xfd, 0x3c, 0xdd, 0xcd, 0x04, 0x32, 0x57, 0xf4, 0x23, 0x59,
  0xc1, 0xcc, 0x42, 0x1a, 0x1b, 0x05, 0x6b, 0x86, 0xaa, 0x42, 0xe6, 0x95,
  0x37, 0x84, 0xac, 0xf9, 0x75, 0xcf, 0x1f, 0x11, 0x41, 0x91, 0xf9, 0x45,
  0x88, 0x3b, 0xb9, 0x01, 0x66, 0xd6, 0xb8, 0x88, 0x7e, 0x64, 0xb9, 0xea,
  0xcc, 0x38, 0x2c, 0xfd, 0xd9, 0x45, 0x5c, 0x55, 0xf2, 0x6e, 0x26, 0xed,
  0xed, 0xfc, 0x4f, 0xa9, 0x32, 0x13, 0xc8, 0x7a, 0xa0, 0xe5, 0x91, 0x88,
  0x57, 0x58, 0x65, 0x5d, 0x3c, 0x40, 0xf4, 0x1e, 0x41, 0x95, 0x98, 0xd1,
  0xe6, 0xaf, 0xdd, 0x61, 0xac, 0xa0, 0x27, 0xe2, 0x55, 0xaa, 0xcc, 0xe1,
  0xcd, 0x13, 0xdc, 0xf2, 0x23, 0x5f, 0x85, 0x84, 0x8c, 0x00, 0xf1, 0x44,
  0x9e, 0x43, 0x00, 0x00, 0x00, 0x00, 0x49, 0x45, 0x4e, 0x44, 0xae, 0x42,
  0x60, 0x82 ]

/-- The big-endian 32-bit integer in the four bytes from offset `off`. -/
def be32 (bs : List Nat) (off : Nat) : Nat :=
  bs.getD off 0 * 2 ^ 24 + bs.getD (off + 1) 0 * 2 ^ 16 + bs.getD (off + 2) 0 * 2 ^ 8 +
    bs.getD (off + 3) 0

/-- The image width a PNG file declares: after the 8 signature bytes and
the length and type of the first chunk, IHDR, bytes 16-19. -/
def ihdrWidth (png : List Nat) : Nat := be32 png 16

/-- The image height a PNG file declares: bytes 20-23. -/
def ihdrHeight (png : List Nat) : Nat := be32 png 20

/-- Modelled from the spec: `toRGBA`, called by `loadImage` (lines 51-59),
is not among the sources.  `loadImage` decodes `fontImage` and scales it by
the given amount; this is the width and height of the image it returns. -/
def loadImageSize (scale : Int) : Int × Int :=
  (ihdrWidth fontImage * scale, ihdrHeight fontImage * scale)

/-- Modelled from the spec: the declaration of `FontConfig` is not among
the sources.  The literal of `TestBitmap` gives the direction, the rune
bounds `Low` and `High` and the glyph table, in this order. -/
structure FontConfig where
  LeftToRight : Bool
  Low : Int
  High : Int
  Glyphs : Charset

/-- Lines 26-31 of `TestBitmap`: the configuration of the font loaded at
scale factor `scale`. -/
def testConfig (scale : Int) : FontConfig :=
  { LeftToRight := true, Low := 0, High := 127, Glyphs := loadGlyphs scale }

/-- The pixel `(px, py)` lies in the rectangle
`[X, X + Width) x [Y, Y + Height)` of the glyph. -/
def Glyph.covers (g : Glyph) (px py : Int) : Prop :=
  g.X ≤ px ∧ px < g.X + g.Width ∧ g.Y ≤ py ∧ py < g.Y + g.Height

instance (g : Glyph) (px py : Int) : Decidable (g.covers px py) := by
  unfold Glyph.covers
  exact inferInstance

end bitmap

/-! ## Sample inputs -/

/-- A parsed font in which every glyph loads, with a 10 x 20 bounding box,
and is drawn. -/
def plainTTF : TTF String :=
  { index := fun r => r.toNat
    load := fun _ _ => .ok ⟨0, 0, 10, 20⟩
    advanceWidth := fun _ _ => 12
    draws := fun _ _ _ _ => true }

/-- An environment in which every byte sequence parses to `plainTTF` and
the logarithm is exact. -/
def plainEnv : Env String :=
  { parse := fun _ => .ok plainTTF
    texName := fun i => i + 1
    genLists := fun _ => 1
    viewport := (0, 0, 640, 480)
    log2 := fun n => Nat.log2 n.toNat }

/-- The ASCII range of `bitmap_test.go`, lines 27-28. -/
def asciiCharset : Charset := ⟨0, 127, 128⟩

/-- A charset over all of `int32` up to rune 0. -/
def wideCharset : Charset := ⟨-2 ^ 31, 0, 2 ^ 31 + 1⟩

/-- A parsed font in which every glyph loads with a bounding box of
`2 ^ 30` x `2 ^ 30`. -/
def hugeTTF : TTF String :=
  { index := fun r => r.toNat
    load := fun _ _ => .ok ⟨0, 0, 1073741824, 1073741824⟩
    advanceWidth := fun _ _ => 12
    draws := fun _ _ _ _ => true }

/-- An environment in which every byte sequence parses to `hugeTTF` and the
logarithm is exact. -/
def hugeEnv : Env String :=
  { parse := fun _ => .ok hugeTTF
    texName := fun i => i + 1
    genLists := fun _ => 1
    viewport := (0, 0, 640, 480)
    log2 := fun n => Nat.log2 n.toNat }

/-- An environment in which no byte sequence parses. -/
def rejectEnv : Env String :=
  { parse := fun _ => .error "truetype: invalid font"
    texName := fun i => i + 1
    genLists := fun _ => 1
    viewport := (0, 0, 640, 480)
    log2 := fun n => Nat.log2 n.toNat }

/-- A parsed font whose glyphs 1 and 2 fail to load. -/
def brokenTTF : TTF String :=
  { index := fun r => r.toNat
    load := fun _ g =>
      if g = 1 then .error "glyph 1" else if g = 2 then .error "glyph 2"
      else .ok ⟨0, 0, 10, 20⟩
    advanceWidth := fun _ _ => 12
    draws := fun _ _ _ _ => true }

/-- An environment in which every byte sequence parses to `brokenTTF` and
the logarithm is exact. -/
def brokenEnv : Env String :=
  { parse := fun _ => .ok brokenTTF
    texName := fun i => i + 1
    genLists := fun _ => 1
    viewport := (0, 0, 640, 480)
    log2 := fun n => Nat.log2 n.toNat }

/-! ## Lemmas on machine integers -/

theorem wrap32_eq_self {z : Int} (h₁ : -2 ^ 31 ≤ z) (h₂ : z < 2 ^ 31) : wrap32 z = z := by
  unfold wrap32
  omega

theorem wrap64_eq_self {z : Int} (h₁ : -2 ^ 63 ≤ z) (h₂ : z < 2 ^ 63) : wrap64 z = z := by
  unfold wrap64
  omega

theorem wrap32_range (z : Int) : -2 ^ 31 ≤ wrap32 z ∧ wrap32 z < 2 ^ 31 := by
  unfold wrap32
  omega

/-- Rounding to a multiple of `ulp` moves up by less than `ulp`. -/
theorem roundNearestEven_le (a ulp : Nat) : roundNearestEven a ulp ≤ a + ulp := by
  unfold roundNearestEven
  have h := Nat.div_mul_le_self a ulp
  dsimp only
  split
  · omega
  · split
    · omega
    · rw [Nat.add_mul, Nat.one_mul]
      omega

/-- The `float32` of an `int32` is at most `2 ^ 32`. -/
theorem roundF32_le (z : Int) (h₁ : -2 ^ 31 ≤ z) (h₂ : z < 2 ^ 31) : roundF32 z ≤ 2 ^ 32 := by
  unfold roundF32
  split
  · omega
  · rename_i hbig
    have ha0 : z.natAbs ≠ 0 := by omega
    have hlog : 2 ^ Nat.log2 z.natAbs ≤ z.natAbs := Nat.log2_self_le ha0
    have hulp : 2 ^ (Nat.log2 z.natAbs - 23) ≤ 2 ^ Nat.log2 z.natAbs :=
      Nat.pow_le_pow_right (by norm_num) (Nat.sub_le _ _)
    have hr := roundNearestEven_le z.natAbs (2 ^ (Nat.log2 z.natAbs - 23))
    have hN : ((roundNearestEven z.natAbs (2 ^ (Nat.log2 z.natAbs - 23)) : Nat) : Int) ≤ 2 ^ 32 := by
      have : roundNearestEven z.natAbs (2 ^ (Nat.log2 z.natAbs - 23)) ≤ 2 ^ 32 := by omega
      exact_mod_cast this
    have hN0 : (0 : Int) ≤ (roundNearestEven z.natAbs (2 ^ (Nat.log2 z.natAbs - 23)) : Nat) :=
      Int.natCast_nonneg _
    rcases lt_trichotomy z 0 with hz | hz | hz
    · rw [Int.sign_eq_neg_one_of_neg hz]
      omega
    · rw [hz, Int.sign_zero]
      omega
    · rw [Int.sign_eq_one_of_pos hz]
      omega

/-- Every glyph width or height `makeList` computes is at most `2 ^ 32`. -/
theorem glyphSize_le (lo hi : Int) : glyphSize lo hi ≤ 2 ^ 32 := by
  unfold glyphSize
  exact roundF32_le _ (wrap32_range _).1 (wrap32_range _).2

/-- The floor of the binary logarithm from its two bounds. -/
theorem log2_eq_of_bounds (n k : Nat) (h₁ : 2 ^ k ≤ n) (h₂ : n < 2 ^ (k + 1)) :
    Nat.log2 n = k := by
  have h0 : n ≠ 0 := by
    have : 0 < 2 ^ k := by positivity
    omega
  have hle : k ≤ Nat.log2 n := (Nat.le_log2 h0).mpr h₁
  have hlt : Nat.log2 n < k + 1 := (Nat.log2_lt h0).mpr h₂
  omega

/-- The conversion to `float32` on four integers of 25 bits: a tie goes to
the even neighbour, on either side of zero. -/
theorem roundF32_ties_to_even :
    roundF32 33554431 = 33554432 ∧ roundF32 16777217 = 16777216 ∧
      roundF32 16777219 = 16777220 ∧ roundF32 (-33554431) = -33554432 ∧
      roundF32 16777215 = 16777215 := by
  have h1 : Nat.log2 33554431 = 24 := log2_eq_of_bounds _ _ (by norm_num) (by norm_num)
  have h2 : Nat.log2 16777217 = 24 := log2_eq_of_bounds _ _ (by norm_num) (by norm_num)
  have h3 : Nat.log2 16777219 = 24 := log2_eq_of_bounds _ _ (by norm_num) (by norm_num)
  refine ⟨?_, ?_, ?_, ?_, by decide⟩
  · unfold roundF32
    rw [if_neg (by decide), show Int.natAbs 33554431 = 33554431 from rfl, h1]
    decide
  · unfold roundF32
    rw [if_neg (by decide), show Int.natAbs 16777217 = 16777217 from rfl, h2]
    decide
  · unfold roundF32
    rw [if_neg (by decide), show Int.natAbs 16777219 = 16777219 from rfl, h3]
    decide
  · unfold roundF32
    rw [if_neg (by decide), show Int.natAbs (-33554431) = 33554431 from rfl, h1]
    decide

/-- The shift of `pow2` wraps at 63 and vanishes from 64 on; a quotient by
zero is an infinity or not a number; an image of 16 x 32 is made, one of
`2 ^ 32` x `2 ^ 32` or with an extent of `2 ^ 63` is not. -/
theorem shiftLeftOne_texCoord_values :
    shiftLeftOne 4 = 16 ∧ shiftLeftOne 63 = -2 ^ 63 ∧ shiftLeftOne 64 = 0 ∧
      texCoord 0 0 = .nan ∧ texCoord 10 0 = .posInf ∧ texCoord 10 16 = .val (5 / 8) ∧
      imageBytes 16 32 = 512 ∧ imageBytes 2147483648 2147483648 = 2 ^ 62 ∧
      renders plainTTF 32 16 32 65 = true ∧
      renders plainTTF 32 4294967296 4294967296 65 = false ∧
      renders plainTTF 32 (-9223372036854775808) 0 65 = false := by
  refine ⟨by decide, by decide, by decide, by decide, by decide, ?_, by decide, by decide,
    by decide, by decide, by decide⟩
  unfold texCoord
  rw [if_neg (by decide)]
  norm_num

/-! ## Lemmas on `pow2` -/

/-- When the math library yields the exact floor of the binary logarithm
of `n`, with `1 ≤ n < 2 ^ 62`, the shift of `pow2` does not overflow. -/
theorem pow2_of_exact {ε : Type} (env : Env ε) (n : Int) (h1 : 1 ≤ n) (h2 : n < 2 ^ 62)
    (hex : env.log2 n = Nat.log2 n.toNat) :
    pow2 env n = 2 ^ (Nat.log2 n.toNat + 1) ∧ (2 : Int) ^ Nat.log2 n.toNat ≤ n ∧
      n < 2 ^ (Nat.log2 n.toNat + 1) := by
  obtain ⟨m, rfl⟩ : ∃ m : Nat, n = m := ⟨n.toNat, by omega⟩
  have hm0 : m ≠ 0 := by omega
  have hlo : 2 ^ Nat.log2 m ≤ m := Nat.log2_self_le hm0
  have hhi : m < 2 ^ (Nat.log2 m + 1) := Nat.lt_log2_self
  have hlt : Nat.log2 m < 62 := (Nat.log2_lt hm0).mpr (by exact_mod_cast h2)
  have hpow : (2 : Nat) ^ (Nat.log2 m + 1) ≤ 2 ^ 62 := Nat.pow_le_pow_right (by norm_num) hlt
  rw [Int.toNat_natCast] at hex ⊢
  refine ⟨?_, by exact_mod_cast hlo, by exact_mod_cast hhi⟩
  unfold pow2 shiftLeftOne
  rw [hex, Nat.mod_eq_of_lt (by omega), if_pos (by omega)]
  apply wrap64_eq_self
  · have : (0 : Int) ≤ 2 ^ (Nat.log2 m + 1) := by positivity
    omega
  · have : ((2 : Nat) ^ (Nat.log2 m + 1) : Int) ≤ ((2 : Nat) ^ 62 : Nat) := by exact_mod_cast hpow
    push_cast at this
    omega

/-- The facts of `pow2` on one glyph dimension `n = glyphSize lo hi ≥ 1`
for which the logarithm is exact. -/
theorem pow2_glyphSize {ε : Type} (env : Env ε) (lo hi : Int) (h1 : 1 ≤ glyphSize lo hi)
    (hex : env.log2 (glyphSize lo hi) = Nat.log2 (glyphSize lo hi).toNat) :
    pow2 env (glyphSize lo hi) = 2 ^ (Nat.log2 (glyphSize lo hi).toNat + 1) ∧
      (2 : Int) ^ Nat.log2 (glyphSize lo hi).toNat ≤ glyphSize lo hi ∧
      glyphSize lo hi < pow2 env (glyphSize lo hi) ∧
      pow2 env (glyphSize lo hi) ≤ 2 * glyphSize lo hi ∧
      texCoord (glyphSize lo hi) (pow2 env (glyphSize lo hi)) =
        .val ((glyphSize lo hi : ℚ) / (pow2 env (glyphSize lo hi) : ℚ)) ∧
      (1 / 2 : ℚ) ≤ (glyphSize lo hi : ℚ) / (pow2 env (glyphSize lo hi) : ℚ) ∧
      (glyphSize lo hi : ℚ) / (pow2 env (glyphSize lo hi) : ℚ) < 1 ∧
      (∀ k : Nat, glyphSize lo hi = 2 ^ k → pow2 env (glyphSize lo hi) = 2 * glyphSize lo hi) := by
  have hle := glyphSize_le lo hi
  generalize glyphSize lo hi = n at h1 hex hle ⊢
  obtain ⟨hp, hlo, hhi⟩ := pow2_of_exact env n h1 (by omega) hex
  have hle2 : pow2 env n ≤ 2 * n := by rw [hp, pow_succ]; omega
  have hlt : n < pow2 env n := by rw [hp]; exact hhi
  have hpos : (0 : ℚ) < (pow2 env n : ℚ) := by
    have : (0 : Int) < pow2 env n := by omega
    exact_mod_cast this
  refine ⟨hp, hlo, hlt, hle2, ?_, ?_, ?_, ?_⟩
  · unfold texCoord
    rw [if_neg (by omega)]
  · rw [le_div_iff₀ hpos]
    have : ((pow2 env n : Int) : ℚ) ≤ ((2 * n : Int) : ℚ) := by exact_mod_cast hle2
    push_cast at this
    linarith
  · rw [div_lt_one hpos]
    exact_mod_cast hlt
  · intro k hk
    have hn : n.toNat = 2 ^ k := by
      rw [hk]
      exact_mod_cast Int.toNat_natCast (2 ^ k)
    rw [hp, hn, Nat.log2_two_pow, hk, pow_succ]
    ring

/-- The texture dimensions of the 10 x 20 glyph box of the sample fonts,
under an exact logarithm. -/
theorem pow2_sample {ε : Type} (env : Env ε) (h : env.log2 = fun n => Nat.log2 n.toNat) :
    pow2 env 10 = 16 ∧ pow2 env 20 = 32 := by
  have h10 : Nat.log2 10 = 3 := by simp [Nat.log2]
  have h20 : Nat.log2 20 = 4 := by simp [Nat.log2]
  unfold pow2
  rw [h]
  constructor
  · show shiftLeftOne ((Nat.log2 10 + 1) % 2 ^ 64) = 16
    rw [h10]
    decide
  · show shiftLeftOne ((Nat.log2 20 + 1) % 2 ^ 64) = 32
    rw [h20]
    decide

/-- The temporary image of the 10 x 20 glyph box of the sample fonts is
made and drawn. -/
theorem renders_sample {ε : Type} (env : Env ε) (ttf : TTF ε)
    (h : env.log2 = fun n => Nat.log2 n.toNat) (hd : ttf.draws = fun _ _ _ _ => true)
    (scale r : Int) :
    renders ttf scale (pow2 env (glyphWidth ⟨0, 0, 10, 20⟩))
      (pow2 env (glyphHeight ⟨0, 0, 10, 20⟩)) r = true := by
  have hw : glyphWidth ⟨0, 0, 10, 20⟩ = 10 := by decide
  have hh : glyphHeight ⟨0, 0, 10, 20⟩ = 20 := by decide
  rw [hw, hh, (pow2_sample env h).1, (pow2_sample env h).2]
  unfold renders
  rw [hd]
  dsimp only
  decide

/-! ## Lemmas on `makeList` and the loading loop -/

theorem makeList_of_load_ok {ε : Type} (env : Env ε) (ttf : TTF ε) (f : Font) (cs : Charset)
    (r : Int) (b : Bounds) (hcs : f.charset = some cs)
    (hb : ttf.load f.scale (ttf.index r) = .ok b)
    (hd : renders ttf f.scale (pow2 env (glyphWidth b)) (pow2 env (glyphHeight b)) r = true)
    (h₀ : 0 ≤ texIndex cs r) (h₁ : texIndex cs r < f.textures.length) :
    makeList env ttf f r =
      ⟨glyphCalls env ttf f b r (texIndex cs r).toNat, .ret (f, none)⟩ := by
  unfold makeList
  rw [hb]
  simp only
  rw [if_pos hd]
  simp only [hcs]
  rw [if_pos ⟨h₀, h₁⟩]

theorem makeList_of_load_error {ε : Type} (env : Env ε) (ttf : TTF ε) (f : Font) (r : Int)
    (e : ε) (he : ttf.load f.scale (ttf.index r) = .error e) :
    makeList env ttf f r = ⟨[], .ret (f, some e)⟩ := by
  unfold makeList
  rw [he]

theorem makeList_of_index_out_of_range {ε : Type} (env : Env ε) (ttf : TTF ε) (f : Font)
    (cs : Charset) (r : Int) (b : Bounds) (hcs : f.charset = some cs)
    (hb : ttf.load f.scale (ttf.index r) = .ok b)
    (hd : renders ttf f.scale (pow2 env (glyphWidth b)) (pow2 env (glyphHeight b)) r = true)
    (h : ¬ (0 ≤ texIndex cs r ∧ texIndex cs r < f.textures.length)) :
    makeList env ttf f r = ⟨[], .panic .indexOutOfRange⟩ := by
  unfold makeList
  rw [hb]
  simp only
  rw [if_pos hd]
  simp only [hcs]
  rw [if_neg h]

theorem makeList_of_image_failure {ε : Type} (env : Env ε) (ttf : TTF ε) (f : Font)
    (r : Int) (b : Bounds) (hb : ttf.load f.scale (ttf.index r) = .ok b)
    (hd : ¬ renders ttf f.scale (pow2 env (glyphWidth b)) (pow2 env (glyphHeight b)) r = true) :
    makeList env ttf f r = ⟨[], .panic .imageFailure⟩ := by
  unfold makeList
  rw [hb]
  simp only
  rw [if_neg hd]

/-- Whenever `makeList` returns, the font is unchanged; when it returns a
nil error, its calls are those of `glyphCalls` for the loaded bounds and some
index. -/
theorem makeList_ret {ε : Type} (env : Env ε) (ttf : TTF ε) (f g : Font) (r : Int)
    (calls : List GLCall) (e : Option ε) (h : makeList env ttf f r = ⟨calls, .ret (g, e)⟩) :
    g = f ∧ (e = none → ∃ b tex, ttf.load f.scale (ttf.index r) = .ok b ∧
      calls = glyphCalls env ttf f b r tex) := by
  unfold makeList at h
  split at h
  · injection h with _ h2
    injection h2 with h3
    refine ⟨(congrArg Prod.fst h3).symm, fun he => ?_⟩
    have := congrArg Prod.snd h3
    rw [he] at this
    cases this
  · rename_i b hb
    split at h
    · split at h
      · injection h with _ h2
        cases h2
      · dsimp only at h
        split at h
        · injection h with h1 h2
          injection h2 with h3
          exact ⟨(congrArg Prod.fst h3).symm, fun _ => ⟨b, _, hb, h1.symm⟩⟩
        · injection h with _ h2
          cases h2
    · injection h with _ h2
      cases h2

/-- The font is never modified by `makeList`. -/
theorem makeList_font {ε : Type} (env : Env ε) (ttf : TTF ε) (f g : Font) (r : Int)
    (calls : List GLCall) (e : Option ε) (h : makeList env ttf f r = ⟨calls, .ret (g, e)⟩) :
    g = f :=
  (makeList_ret env ttf f g r calls e h).1

/-- The calls of the iterations for the runes `r, r + 1, ..., r + m - 1`. -/
theorem range_succ_flatMap {β : Type} (m : Nat) (g : Nat → List β) :
    (List.range (m + 1)).flatMap g = g 0 ++ (List.range m).flatMap (fun j => g (j + 1)) := by
  rw [List.range_succ_eq_map, List.flatMap_cons, List.flatMap_map]

/-- As long as the counter stays at most `High`, below `2 ^ 31 - 1`, and
`makeList` returns a nil error, `m` iterations of the loop consume `m` units
of fuel and append the calls of `makeList` for `r, ..., r + m - 1`. -/
theorem loadLoop_prefix {ε : Type} (env : Env ε) (ttf : TTF ε) (cs : Charset) (f : Font) :
    ∀ (m fuel : Nat) (r : Int) (log : List GLCall),
      -2 ^ 31 ≤ r → r + m ≤ 2 ^ 31 - 1 → r + m ≤ cs.High + 1 →
      (∀ j : Nat, j < m → (makeList env ttf f (r + j)).res = .ret (f, none)) →
      loadLoop env ttf cs (fuel + m) r f log =
        loadLoop env ttf cs fuel (r + m) f
          (log ++ (List.range m).flatMap (fun j => (makeList env ttf f (r + j)).log)) := by
  intro m
  induction m with
  | zero => intro fuel r log _ _ _ _; simp
  | succ m ih =>
    intro fuel r log hr hm hH hok
    have h0 := hok 0 (Nat.succ_pos m)
    have hle : r ≤ cs.High := by push_cast at hH; omega
    have hw : wrap32 (r + 1) = r + 1 := by
      apply wrap32_eq_self
      · omega
      · push_cast at hm; omega
    rw [show fuel + (m + 1) = (fuel + m) + 1 from by omega]
    rw [loadLoop, if_pos hle]
    rcases hml : makeList env ttf f r with ⟨calls, res⟩
    rw [Nat.cast_zero, add_zero, hml] at h0
    simp only at h0
    subst h0
    simp only [hw]
    rw [ih fuel (r + 1) (log ++ calls) (by omega) (by push_cast at hm; omega)
      (by push_cast at hH; omega)
      (fun j hj => by
        have := hok (j + 1) (by omega)
        rw [show r + 1 + (j : Int) = r + ((j + 1 : Nat) : Int) from by push_cast; ring]
        exact this)]
    have hfun : (fun j : Nat => (makeList env ttf f (r + 1 + (j : Int))).log) =
        (fun j : Nat => (makeList env ttf f (r + ((j + 1 : Nat) : Int))).log) := by
      funext j
      rw [show r + 1 + (j : Int) = r + ((j + 1 : Nat) : Int) from by push_cast; ring]
    have hr1 : r + ((m + 1 : Nat) : Int) = r + 1 + (m : Int) := by push_cast; ring
    rw [range_succ_flatMap, Nat.cast_zero, add_zero, hml, List.append_assoc, hfun, hr1]

/-- After the loop condition fails the loop returns the font and a nil
error. -/
theorem loadLoop_exit {ε : Type} (env : Env ε) (ttf : TTF ε) (cs : Charset) (f : Font) (fuel : Nat) (r : Int)
    (log : List GLCall) (hfuel : 0 < fuel) (hr : cs.High < r) :
    loadLoop env ttf cs fuel r f log = some ⟨log, .ret (some f, none)⟩ := by
  obtain ⟨k, rfl⟩ : ∃ k, fuel = k + 1 := ⟨fuel - 1, by omega⟩
  rw [loadLoop, if_neg (by omega)]

theorem newFont_textures_length {ε : Type} (env : Env ε) (scale : Int) (cs : Charset) :
    (newFont env scale cs).textures.length = cs.Len.toNat := by
  simp [newFont]

/-- Slot `i` of the textures of the freshly allocated font holds the name
`gl.GenTextures` wrote there. -/
theorem newFont_texture {ε : Type} (env : Env ε) (scale : Int) (cs : Charset) (i : Nat)
    (hi : i < cs.Len.toNat) : (newFont env scale cs).textures.getD i 0 = env.texName i := by
  simp [newFont, List.getD_eq_getElem?_getD, List.getElem?_range hi]

/-- A rune of the range whose distance from `Low` fits `int32`, and whose
image is made and drawn, gets the index `r - Low`, which is in range for the
freshly allocated font. -/
theorem makeList_newFont {ε : Type} (env : Env ε) (ttf : TTF ε) (scale : Int) (cs : Charset)
    (hLen : cs.Len = cs.High - cs.Low + 1)
    (r : Int) (b : Bounds) (hr₁ : cs.Low ≤ r) (hr₂ : r ≤ cs.High) (hr₃ : r - cs.Low < 2 ^ 31)
    (hb : ttf.load scale (ttf.index r) = .ok b)
    (hd : renders ttf scale (pow2 env (glyphWidth b)) (pow2 env (glyphHeight b)) r = true) :
    makeList env ttf (newFont env scale cs) r =
      ⟨glyphCalls env ttf (newFont env scale cs) b r (r - cs.Low).toNat,
        .ret (newFont env scale cs, none)⟩ := by
  have hti : texIndex cs r = r - cs.Low := by
    unfold texIndex
    exact wrap32_eq_self (by omega) (by omega)
  have h := makeList_of_load_ok env ttf (newFont env scale cs) cs r b rfl hb hd
    (by rw [hti]; omega) (by rw [hti, newFont_textures_length]; omega)
  rw [hti] at h
  exact h

/-- The complete result of a load on which the font parses and every glyph
of the range loads. -/
theorem LoadFontData_success {ε : Type} (env : Env ε) (fuel : Nat) (fontData : List Nat)
    (scale : Int) (cs : Charset) (ttf : TTF ε)
    (hLow : -2 ^ 31 ≤ cs.Low) (hLH : cs.Low ≤ cs.High) (hHigh : cs.High < 2 ^ 31 - 1)
    (hspan : cs.High - cs.Low < 2 ^ 31) (hLen : cs.Len = cs.High - cs.Low + 1)
    (hparse : env.parse fontData = .ok ttf)
    (hload : ∀ r, cs.Low ≤ r → r ≤ cs.High → ∃ b, ttf.load scale (ttf.index r) = .ok b ∧
      renders ttf scale (pow2 env (glyphWidth b)) (pow2 env (glyphHeight b)) r = true)
    (hfuel : (cs.High - cs.Low + 1).toNat < fuel) :
    LoadFontData env fuel fontData scale cs =
      some ⟨[GLCall.genTextures cs.Len.toNat, GLCall.genLists cs.Len] ++
          (List.range cs.Len.toNat).flatMap
            (fun i => (makeList env ttf (newFont env scale cs) (cs.Low + i)).log),
        .ret (some (newFont env scale cs), none)⟩ := by
  unfold LoadFontData
  rw [hparse]
  simp only
  rw [if_neg (by omega)]
  obtain ⟨k, hk⟩ : ∃ k, fuel = k + cs.Len.toNat := ⟨fuel - cs.Len.toNat, by rw [hLen]; omega⟩
  have hk0 : 0 < k := by rw [hLen] at hk; omega
  rw [hk, loadLoop_prefix env ttf cs (newFont env scale cs) cs.Len.toNat k cs.Low _ hLow
    (by omega) (by omega)]
  · exact loadLoop_exit env ttf cs _ k _ _ hk0 (by omega)
  · intro j hj
    obtain ⟨b, hb, hd⟩ := hload (cs.Low + j) (by omega) (by omega)
    rw [makeList_newFont env ttf scale cs hLen (cs.Low + j) b (by omega) (by omega) (by omega)
      hb hd]

/-- An iteration in which `makeList` panics ends the load with that panic. -/
theorem loadLoop_panic {ε : Type} (env : Env ε) (ttf : TTF ε) (cs : Charset) (f : Font) (fuel : Nat) (r : Int)
    (log calls : List GLCall) (p : Panic) (hfuel : 0 < fuel) (hr : r ≤ cs.High)
    (hm : makeList env ttf f r = ⟨calls, .panic p⟩) :
    loadLoop env ttf cs fuel r f log = some ⟨log ++ calls, .panic p⟩ := by
  obtain ⟨k, rfl⟩ : ∃ k, fuel = k + 1 := ⟨fuel - 1, by omega⟩
  rw [loadLoop, if_pos hr, hm]

/-- An iteration in which `makeList` returns an error ends the load: the
named results are the font built so far and that error. -/
theorem loadLoop_error {ε : Type} (env : Env ε) (ttf : TTF ε) (cs : Charset) (f g : Font) (fuel : Nat) (r : Int)
    (log calls : List GLCall) (e : ε) (hfuel : 0 < fuel) (hr : r ≤ cs.High)
    (hm : makeList env ttf f r = ⟨calls, .ret (g, some e)⟩) :
    loadLoop env ttf cs fuel r f log = some ⟨log ++ calls, .ret (some g, some e)⟩ := by
  obtain ⟨k, rfl⟩ : ∃ k, fuel = k + 1 := ⟨fuel - 1, by omega⟩
  rw [loadLoop, if_pos hr, hm]

/-! ## C1: a successful load -/

/-- C1 (amended): for every charset with `-2^31 ≤ Low ≤ High < 2^31 - 1`,
`High - Low < 2^31` and `Len() = High - Low + 1`, if the font parses and, for
every rune of `[Low, High]`, the glyph loads and its temporary image is made
and drawn, then with enough fuel `LoadFontData` returns a nil error and a
font holding `High - Low + 1` textures, after generating `High - Low + 1`
textures and `High - Low + 1` display lists; its log is the two generating
calls followed by the calls of `makeList` for the runes
`Low, Low + 1, ..., High` in ascending order, once each; the run of `makeList`
for rune `Low + i` succeeds, binds the texture of slot `i` and compiles the
list `listbase + i`; and the index of a rune `r` of the range is `r - Low`,
between `0` and `High - Low`. -/
theorem LoadFontData_loads_each_rune_once {ε : Type} (env : Env ε) (fuel : Nat)
    (fontData : List Nat) (scale : Int) (cs : Charset) (ttf : TTF ε)
    (hLow : -2 ^ 31 ≤ cs.Low) (hLH : cs.Low ≤ cs.High) (hHigh : cs.High < 2 ^ 31 - 1)
    (hspan : cs.High - cs.Low < 2 ^ 31) (hLen : cs.Len = cs.High - cs.Low + 1)
    (hparse : env.parse fontData = .ok ttf)
    (hload : ∀ r, cs.Low ≤ r → r ≤ cs.High → ∃ b, ttf.load scale (ttf.index r) = .ok b ∧
      renders ttf scale (pow2 env (glyphWidth b)) (pow2 env (glyphHeight b)) r = true)
    (hfuel : (cs.High - cs.Low + 1).toNat < fuel) :
    LoadFontData env fuel fontData scale cs =
        some ⟨[GLCall.genTextures (cs.High - cs.Low + 1).toNat,
            GLCall.genLists (cs.High - cs.Low + 1)] ++
            (List.range (cs.High - cs.Low + 1).toNat).flatMap
              (fun i => (makeList env ttf (newFont env scale cs) (cs.Low + i)).log),
          .ret (some (newFont env scale cs), none)⟩ ∧
      (newFont env scale cs).textures.length = (cs.High - cs.Low + 1).toNat ∧
      (newFont env scale cs).listbase = env.genLists (cs.High - cs.Low + 1) ∧
      (∀ i : Nat, i < (cs.High - cs.Low + 1).toNat →
        ∃ b, ttf.load scale (ttf.index (cs.Low + i)) = .ok b ∧
          makeList env ttf (newFont env scale cs) (cs.Low + i) =
            ⟨[GLCall.bindTexture (env.texName i),
              GLCall.texImage2D (pow2 env (glyphWidth b)) (pow2 env (glyphHeight b)),
              GLCall.newList ((env.genLists (cs.High - cs.Low + 1) + i) % 2 ^ 64),
              GLCall.bindTexture (env.texName i),
              GLCall.quad (roundF32 b.XMin) (roundF32 b.YMin) (glyphWidth b) (glyphHeight b)
                (texCoord (glyphWidth b) (pow2 env (glyphWidth b)))
                (texCoord (glyphHeight b) (pow2 env (glyphHeight b))),
              GLCall.advance (roundF32 (ttf.advanceWidth scale (ttf.index (cs.Low + i)))),
              GLCall.endList],
              .ret (newFont env scale cs, none)⟩) ∧
      (∀ r, cs.Low ≤ r → r ≤ cs.High →
        texIndex cs r = r - cs.Low ∧ 0 ≤ texIndex cs r ∧ texIndex cs r ≤ cs.High - cs.Low) := by
  refine ⟨?_, ?_, ?_, ?_, ?_⟩
  · have h := LoadFontData_success env fuel fontData scale cs ttf hLow hLH hHigh hspan hLen
      hparse hload hfuel
    rw [hLen] at h
    exact h
  · rw [newFont_textures_length, hLen]
  · simp [newFont, hLen]
  · intro i hi
    obtain ⟨b, hb, hd⟩ := hload (cs.Low + i) (by omega) (by omega)
    refine ⟨b, hb, ?_⟩
    have h := makeList_newFont env ttf scale cs hLen (cs.Low + i) b (by omega) (by omega)
      (by omega) hb hd
    rw [show (cs.Low + (i : Int) - cs.Low).toNat = i from by
      rw [show cs.Low + (i : Int) - cs.Low = (i : Int) from by ring]
      exact Int.toNat_natCast i] at h
    rw [h]
    unfold glyphCalls
    rw [newFont_texture env scale cs i (by rw [hLen]; exact hi)]
    simp only [newFont, hLen]
  · intro r hr₁ hr₂
    have hti : texIndex cs r = r - cs.Low := by
      unfold texIndex
      exact wrap32_eq_self (by omega) (by omega)
    rw [hti]
    omega

/-- C1 at the range `[0, 127]` of the bitmap test: 128 textures, 128 display
lists, one run of `makeList` per rune. -/
theorem LoadFontData_loads_each_rune_once_witness :
    LoadFontData plainEnv 129 [] 32 asciiCharset =
        some ⟨[GLCall.genTextures 128, GLCall.genLists 128] ++
            (List.range 128).flatMap
              (fun i => (makeList plainEnv plainTTF (newFont plainEnv 32 asciiCharset)
                (0 + i)).log),
          .ret (some (newFont plainEnv 32 asciiCharset), none)⟩ ∧
      (newFont plainEnv 32 asciiCharset).textures.length = 128 :=
  have h := LoadFontData_loads_each_rune_once plainEnv 129 [] 32 asciiCharset plainTTF
    (by decide) (by decide) (by decide) (by decide) (by decide) rfl
    (fun r _ _ => ⟨⟨0, 0, 10, 20⟩, rfl, renders_sample plainEnv plainTTF rfl rfl 32 r⟩)
    (by decide)
  ⟨h.1, h.2.1⟩

/-- The first `2 ^ 31` iterations on `wideCharset` succeed. -/
theorem makeList_wideCharset_ok (j : Nat) (hj : j < 2 ^ 31) :
    (makeList plainEnv plainTTF (newFont plainEnv 32 wideCharset) (wideCharset.Low + j)).res =
      .ret (newFont plainEnv 32 wideCharset, none) := by
  have hL : wideCharset.Low = -2 ^ 31 := rfl
  have hH : wideCharset.High = 0 := rfl
  rw [makeList_newFont plainEnv plainTTF 32 wideCharset (by rw [hL, hH]; rfl)
    (wideCharset.Low + j) ⟨0, 0, 10, 20⟩ (by omega) (by rw [hL, hH]; omega) (by omega) rfl
    (renders_sample plainEnv plainTTF rfl rfl 32 _)]

/-- At rune 0 the `int32` difference `0 - Low` of `wideCharset` wraps to
`-2 ^ 31`, so the texture index is out of range. -/
theorem makeList_wideCharset_panic :
    makeList plainEnv plainTTF (newFont plainEnv 32 wideCharset) 0 =
      ⟨[], .panic .indexOutOfRange⟩ := by
  apply makeList_of_index_out_of_range plainEnv plainTTF _ wideCharset 0 ⟨0, 0, 10, 20⟩ rfl rfl
    (renders_sample plainEnv plainTTF rfl rfl 32 0)
  have h : texIndex wideCharset 0 = -2 ^ 31 := by
    simp only [texIndex, wideCharset, wrap32]
    norm_num
  rw [h]
  omega

/-- The glyph box of `2 ^ 30` x `2 ^ 30` asks for a texture of
`2 ^ 31` x `2 ^ 31` and a pixel buffer of `2 ^ 62` bytes, which cannot be made:
`makeList` panics before any OpenGL call. -/
theorem makeList_huge_panic :
    makeList hugeEnv hugeTTF (newFont hugeEnv 32 ⟨0, 0, 1⟩) 0 = ⟨[], .panic .imageFailure⟩ := by
  have hlog : Nat.log2 1073741824 = 30 := by
    have h0 : (1073741824 : Nat) ≠ 0 := by norm_num
    have h1 : 30 ≤ Nat.log2 1073741824 := (Nat.le_log2 h0).mpr (by norm_num)
    have h2 : Nat.log2 1073741824 < 31 := (Nat.log2_lt h0).mpr (by norm_num)
    omega
  have hround : roundF32 1073741824 = 1073741824 := by
    unfold roundF32
    rw [if_neg (by decide), show Int.natAbs 1073741824 = 1073741824 from rfl, hlog]
    decide
  have hsize : glyphSize 0 1073741824 = 1073741824 := by
    unfold glyphSize
    rw [show wrap32 (1073741824 - 0) = 1073741824 from by decide, hround]
  have hpow : pow2 hugeEnv 1073741824 = 2147483648 := by
    have h := (pow2_of_exact hugeEnv 1073741824 (by norm_num) (by norm_num) rfl).1
    rw [show Int.toNat 1073741824 = 1073741824 from rfl, hlog] at h
    rw [h]
    norm_num
  apply makeList_of_image_failure hugeEnv hugeTTF _ 0 ⟨0, 0, 1073741824, 1073741824⟩ rfl
  show ¬ renders hugeTTF 32 (pow2 hugeEnv (glyphSize 0 1073741824))
    (pow2 hugeEnv (glyphSize 0 1073741824)) 0 = true
  rw [hsize, hpow]
  decide

/-- C1 as stated fails in two ways.  On `wideCharset`, `Low ≤ High < 2^31 - 1`
and `Len() = High - Low + 1` hold, the font parses and every glyph loads, yet
no amount of fuel makes `LoadFontData` return a font with a nil error; with
`2^31 + 1` units of fuel it panics with an index out of range at rune 0,
whose index `0 - Low` has wrapped around.  On the range `[0, 0]` with a font
whose glyph loads with a box of `2^30` x `2^30`, `LoadFontData` panics in the
first run of `makeList`, on the temporary image, after the two generating
calls. -/
theorem LoadFontData_panics_on_loaded_glyphs :
    ((wideCharset.Low ≤ wideCharset.High ∧ wideCharset.High < 2 ^ 31 - 1 ∧
        wideCharset.Len = wideCharset.High - wideCharset.Low + 1) ∧
      (∀ r, plainTTF.load 32 (plainTTF.index r) = .ok ⟨0, 0, 10, 20⟩) ∧
      (∀ (fuel : Nat) (log : List GLCall) (font : Font),
        LoadFontData plainEnv fuel [] 32 wideCharset ≠ some ⟨log, .ret (some font, none)⟩) ∧
      (LoadFontData plainEnv (2 ^ 31 + 1) [] 32 wideCharset).map Run.res =
        some (.panic .indexOutOfRange)) ∧
    ((∀ r, hugeTTF.load 32 (hugeTTF.index r) = .ok ⟨0, 0, 1073741824, 1073741824⟩) ∧
      (∀ (fuel : Nat) (log : List GLCall) (font : Font),
        LoadFontData hugeEnv fuel [] 32 ⟨0, 0, 1⟩ ≠ some ⟨log, .ret (some font, none)⟩) ∧
      LoadFontData hugeEnv 1 [] 32 ⟨0, 0, 1⟩ =
        some ⟨[GLCall.genTextures 1, GLCall.genLists 1], .panic .imageFailure⟩) := by
  have hL : wideCharset.Low = -2 ^ 31 := rfl
  have hH : wideCharset.High = 0 := rfl
  have hunf : ∀ fuel, LoadFontData plainEnv fuel [] 32 wideCharset =
      loadLoop plainEnv plainTTF wideCharset fuel wideCharset.Low
        (newFont plainEnv 32 wideCharset)
        [GLCall.genTextures wideCharset.Len.toNat, GLCall.genLists wideCharset.Len] := by
    intro fuel
    unfold LoadFontData
    simp only [plainEnv]
    rw [if_neg (by simp only [wideCharset]; norm_num)]
  have hbig : ∀ k : Nat, 0 < k →
      (LoadFontData plainEnv (k + 2 ^ 31) [] 32 wideCharset).map Run.res =
        some (.panic .indexOutOfRange) := by
    intro k hk
    rw [hunf, loadLoop_prefix plainEnv plainTTF wideCharset _ (2 ^ 31) k wideCharset.Low _
      (by rw [hL]) (by rw [hL]; norm_num) (by rw [hL, hH]; norm_num)
      (fun j hj => makeList_wideCharset_ok j hj)]
    rw [show wideCharset.Low + ((2 ^ 31 : Nat) : Int) = 0 from by rw [hL]; norm_num]
    rw [loadLoop_panic plainEnv plainTTF wideCharset _ k 0 _ [] .indexOutOfRange hk
      (by rw [hH]) makeList_wideCharset_panic]
    rfl
  have hhuge : ∀ fuel : Nat, 0 < fuel → LoadFontData hugeEnv fuel [] 32 ⟨0, 0, 1⟩ =
      some ⟨[GLCall.genTextures 1, GLCall.genLists 1], .panic .imageFailure⟩ := by
    intro fuel hfuel
    have hp : hugeEnv.parse [] = .ok hugeTTF := rfl
    unfold LoadFontData
    rw [hp]
    simp only
    rw [if_neg (by decide), loadLoop_panic hugeEnv hugeTTF ⟨0, 0, 1⟩ _ fuel 0 _ []
      .imageFailure hfuel (by decide) makeList_huge_panic]
    rfl
  refine ⟨⟨⟨by rw [hL, hH]; norm_num, by rw [hH]; norm_num, rfl⟩, fun _ => rfl, ?_, ?_⟩,
    ⟨fun _ => rfl, ?_, hhuge 1 (by decide)⟩⟩
  · intro fuel log font h
    by_cases hf : fuel ≤ 2 ^ 31
    · rw [hunf, show fuel = 0 + fuel from by omega,
        loadLoop_prefix plainEnv plainTTF wideCharset _ fuel 0 wideCharset.Low _
          (by rw [hL]) (by rw [hL]; omega) (by rw [hL, hH]; omega)
          (fun j hj => makeList_wideCharset_ok j (by omega))] at h
      simp [loadLoop] at h
    · have h2 := hbig (fuel - 2 ^ 31) (by omega)
      rw [show fuel - 2 ^ 31 + 2 ^ 31 = fuel from by omega, h] at h2
      simp at h2
  · have := hbig 1 (by norm_num)
    rw [show (1 : Nat) + 2 ^ 31 = 2 ^ 31 + 1 from by norm_num] at this
    exact this
  · intro fuel log font h
    rcases Nat.eq_zero_or_pos fuel with h0 | h0
    · subst h0
      have hp : hugeEnv.parse [] = .ok hugeTTF := rfl
      unfold LoadFontData at h
      rw [hp] at h
      simp [loadLoop] at h
    · rw [hhuge fuel h0] at h
      simp at h

/-! ## C2, C3: failing loads -/

/-- C2 at a failing input: on the range `[0, 2]` with a font whose glyph 1
fails to load, `LoadFontData` returns the error of glyph 1, the first failing
step, after the calls for rune 0 only (rune 2 is not processed), but the font
it returns is the allocated, partially built font and not nil. -/
theorem LoadFontData_glyph_failure_returns_font :
    LoadFontData brokenEnv 4 [] 32 ⟨0, 2, 3⟩ =
      some ⟨[GLCall.genTextures 3, GLCall.genLists 3] ++
          glyphCalls brokenEnv brokenTTF (newFont brokenEnv 32 ⟨0, 2, 3⟩) ⟨0, 0, 10, 20⟩ 0 0,
        .ret (some ⟨[1, 2, 3], some ⟨0, 2, 3⟩, 32, 1⟩, some "glyph 1")⟩ := by
  have h0 : makeList brokenEnv brokenTTF (newFont brokenEnv 32 ⟨0, 2, 3⟩) 0 =
      ⟨glyphCalls brokenEnv brokenTTF (newFont brokenEnv 32 ⟨0, 2, 3⟩) ⟨0, 0, 10, 20⟩ 0 0,
        .ret (newFont brokenEnv 32 ⟨0, 2, 3⟩, none)⟩ :=
    makeList_of_load_ok brokenEnv brokenTTF _ ⟨0, 2, 3⟩ 0 ⟨0, 0, 10, 20⟩ rfl rfl
      (renders_sample brokenEnv brokenTTF rfl rfl 32 0) (by decide) (by decide)
  have h1 : makeList brokenEnv brokenTTF (newFont brokenEnv 32 ⟨0, 2, 3⟩) 1 =
      ⟨[], .ret (newFont brokenEnv 32 ⟨0, 2, 3⟩, some "glyph 1")⟩ :=
    makeList_of_load_error brokenEnv brokenTTF _ 1 "glyph 1" rfl
  have hw : wrap32 (0 + 1) = 1 := by decide
  have hp : brokenEnv.parse [] = .ok brokenTTF := rfl
  unfold LoadFontData
  rw [hp]
  simp only
  rw [if_neg (by decide), loadLoop, if_pos (by decide), h0]
  simp only [hw]
  rw [loadLoop, if_pos (by decide), h1]
  rfl

/-- C3: when the TrueType parser rejects the bytes with error `e`,
`LoadFontData` returns exactly `e` together with the nil font, whatever the
fuel, and its log is empty: no texture and no display list was generated. -/
theorem LoadFontData_parse_error {ε : Type} (env : Env ε) (fuel : Nat) (fontData : List Nat)
    (scale : Int) (cs : Charset) (e : ε) (hparse : env.parse fontData = .error e) :
    LoadFontData env fuel fontData scale cs = some ⟨[], .ret (none, some e)⟩ := by
  unfold LoadFontData
  rw [hparse]

/-- C3 on four bytes that are not a font. -/
theorem LoadFontData_parse_error_witness :
    LoadFontData rejectEnv 0 [0, 1, 2, 3] 32 asciiCharset =
      some ⟨[], .ret (none, some "truetype: invalid font")⟩ :=
  LoadFontData_parse_error rejectEnv 0 [0, 1, 2, 3] 32 asciiCharset "truetype: invalid font" rfl

/-! ## What a returned font is -/

/-- Whenever the loop returns a font, it is the font the loop started with,
and the log only grew. -/
theorem loadLoop_ret_font {ε : Type} (env : Env ε) (ttf : TTF ε) (cs : Charset) :
    ∀ (fuel : Nat) (r : Int) (f : Font) (log log' : List GLCall) (g : Font) (e : Option ε),
      loadLoop env ttf cs fuel r f log = some ⟨log', .ret (some g, e)⟩ →
      g = f ∧ ∃ calls, log' = log ++ calls := by
  intro fuel
  induction fuel with
  | zero => intro r f log log' g e h; simp [loadLoop] at h
  | succ fuel ih =>
    intro r f log log' g e h
    rw [loadLoop] at h
    by_cases hr : r ≤ cs.High
    · rw [if_pos hr] at h
      rcases hm : makeList env ttf f r with ⟨calls, (⟨g', (_ | e')⟩ | p)⟩
      · rw [hm] at h
        simp only at h
        have hg := makeList_font env ttf f g' r calls none hm
        subst hg
        obtain ⟨h1, calls', h2⟩ := ih _ _ _ _ _ _ h
        exact ⟨h1, calls ++ calls', by rw [h2, List.append_assoc]⟩
      · rw [hm] at h
        simp only [Option.some.injEq, Run.mk.injEq, Outcome.ret.injEq, Prod.mk.injEq] at h
        have hg := makeList_font env ttf f g' r calls (some e') hm
        exact ⟨by rw [← h.2.1, hg], calls, h.1.symm⟩
      · rw [hm] at h
        simp at h
    · rw [if_neg hr] at h
      simp only [Option.some.injEq, Run.mk.injEq, Outcome.ret.injEq, Prod.mk.injEq] at h
      exact ⟨h.2.1.symm, [], by rw [← h.1, List.append_nil]⟩

/-- Whenever `LoadFontData` returns a font, `cs.Len()` was not negative, the
font is the one allocated in lines 52-58 and the log starts with the two
generating calls. -/
theorem LoadFontData_ret_font {ε : Type} (env : Env ε) (fuel : Nat) (fontData : List Nat)
    (scale : Int) (cs : Charset) (log : List GLCall) (f : Font) (e : Option ε)
    (h : LoadFontData env fuel fontData scale cs = some ⟨log, .ret (some f, e)⟩) :
    f = newFont env scale cs ∧
      ∃ calls, log = [GLCall.genTextures cs.Len.toNat, GLCall.genLists cs.Len] ++ calls := by
  unfold LoadFontData at h
  split at h
  · simp at h
  · split at h
    · simp at h
    · exact loadLoop_ret_font env _ cs _ _ _ _ _ _ _ h

/-- The font is never modified by `Printf`. -/
theorem Printf_font {ε : Type} (env : Env ε) (f g : Font) (x y : Float32) (s : List Char)
    (calls : List GLCall) (h : f.Printf env x y s = ⟨calls, .ret g⟩) : g = f := by
  unfold Font.Printf at h
  dsimp only at h
  split at h
  · injection h with _ h2
    injection h2 with h3
    exact h3.symm
  · split at h
    · injection h with _ h2
      cases h2
    · injection h with _ h2
      injection h2 with h3
      exact h3.symm

/-- A rune of a Go string is a Unicode code point. -/
theorem char_toNat_lt (c : Char) : c.toNat < 1114112 := by
  have h := c.valid
  unfold UInt32.isValidChar Nat.isValidChar at h
  unfold Char.toNat
  omega

/-- With `0 ≤ Low < 2^31` the `int32` difference of a rune of a string and
`Low` does not wrap. -/
theorem texIndex_runes (cs : Charset) (hLow : 0 ≤ cs.Low) (hLow' : cs.Low < 2 ^ 31)
    (s : List Char) : (runes s).map (texIndex cs) = (runes s).map (fun r => r - cs.Low) := by
  apply List.map_congr_left
  intro r hr
  unfold runes at hr
  obtain ⟨c, _, rfl⟩ := List.mem_map.mp hr
  have := char_toNat_lt c
  unfold texIndex
  exact wrap32_eq_self (by omega) (by omega)

/-! ## C7, C8: the font of a successful load -/

/-- C7: for every font `f` returned by a successful `LoadFontData` on
`(fontData, scale, cs)`, the load generated `cs.Len()` texture names, which
are `f.textures`, and `cs.Len()` display lists from the base `f.listbase`;
`Release` deletes exactly `f.textures` and `cs.Len()` display lists starting
at `f.listbase`, and returns the font with charset nil, textures nil,
listbase 0 and the scale unchanged. -/
theorem Release_after_load {ε : Type} (env : Env ε) (fuel : Nat) (fontData : List Nat)
    (scale : Int) (cs : Charset) (log : List GLCall) (f : Font)
    (h : LoadFontData env fuel fontData scale cs = some ⟨log, .ret (some f, none)⟩) :
    (∃ calls, log = [GLCall.genTextures cs.Len.toNat, GLCall.genLists cs.Len] ++ calls) ∧
      f.textures = (List.range cs.Len.toNat).map env.texName ∧
      f.listbase = env.genLists cs.Len ∧
      f.Release =
        ⟨[GLCall.deleteTextures f.textures, GLCall.deleteLists f.listbase cs.Len],
          .ret { textures := [], charset := none, scale := scale, listbase := 0 }⟩ := by
  obtain ⟨hf, hlog⟩ := LoadFontData_ret_font env fuel fontData scale cs log f none h
  subst hf
  exact ⟨hlog, rfl, rfl, rfl⟩

/-- C7 on the range `[0, 1]`: the two textures `1, 2` and two display lists
from base `1` are deleted. -/
theorem Release_after_load_witness :
    (newFont plainEnv 32 ⟨0, 1, 2⟩).Release =
      ⟨[GLCall.deleteTextures [1, 2], GLCall.deleteLists 1 2],
        .ret { textures := [], charset := none, scale := 32, listbase := 0 }⟩ :=
  (Release_after_load plainEnv 3 [] 32 ⟨0, 1, 2⟩ _ _
    (LoadFontData_success plainEnv 3 [] 32 ⟨0, 1, 2⟩ plainTTF (by decide) (by decide) (by decide)
      (by decide) (by decide) rfl
      (fun r _ _ => ⟨⟨0, 0, 10, 20⟩, rfl, renders_sample plainEnv plainTTF rfl rfl 32 r⟩)
      (by decide))).2.2.2

/-- C8: for every font `f` returned by a successful `LoadFontData` on
`(fontData, scale, cs)`, `f.Scale()` is `scale` and `f.Charset()` is `cs`, and
the font after any returning call of `makeList` or `Printf` on `f` still has
that scale and that charset. -/
theorem Scale_Charset_after_load {ε : Type} (env : Env ε) (fuel : Nat) (fontData : List Nat)
    (scale : Int) (cs : Charset) (log : List GLCall) (f : Font)
    (h : LoadFontData env fuel fontData scale cs = some ⟨log, .ret (some f, none)⟩) :
    f.Scale = scale ∧ f.Charset = some cs ∧
      (∀ (env' : Env ε) (ttf : TTF ε) (r : Int) (calls : List GLCall) (g : Font) (e : Option ε),
        makeList env' ttf f r = ⟨calls, .ret (g, e)⟩ → g.Scale = scale ∧ g.Charset = some cs) ∧
      (∀ (x y : Float32) (s : List Char) (calls : List GLCall) (g : Font),
        f.Printf env x y s = ⟨calls, .ret g⟩ → g.Scale = scale ∧ g.Charset = some cs) := by
  obtain ⟨hf, -⟩ := LoadFontData_ret_font env fuel fontData scale cs log f none h
  subst hf
  refine ⟨rfl, rfl, ?_, ?_⟩
  · intro env' ttf r calls g e hm
    rw [makeList_font env' ttf _ g r calls e hm]
    exact ⟨rfl, rfl⟩
  · intro x y s calls g hp
    rw [Printf_font env _ g x y s calls hp]
    exact ⟨rfl, rfl⟩

/-- C8 on the range `[0, 1]` at scale 32. -/
theorem Scale_Charset_after_load_witness :
    (newFont plainEnv 32 ⟨0, 1, 2⟩).Scale = 32 ∧
      (newFont plainEnv 32 ⟨0, 1, 2⟩).Charset = some ⟨0, 1, 2⟩ :=
  have h := Scale_Charset_after_load plainEnv 3 [] 32 ⟨0, 1, 2⟩ _ _
    (LoadFontData_success plainEnv 3 [] 32 ⟨0, 1, 2⟩ plainTTF (by decide) (by decide) (by decide)
      (by decide) (by decide) rfl
      (fun r _ _ => ⟨⟨0, 0, 10, 20⟩, rfl, renders_sample plainEnv plainTTF rfl rfl 32 r⟩)
      (by decide))
  ⟨h.1, h.2.1⟩

/-! ## C4, C5: `Printf` -/

/-- C4 as stated fails: the font loaded over `[0, 1]` is released, and
`Printf` of the one-rune string `A` on the released font panics with a nil
dereference of the released charset. -/
theorem Printf_after_Release_panics :
    (newFont plainEnv 32 ⟨0, 1, 2⟩).Release.res = .ret ⟨[], none, 32, 0⟩ ∧
      Font.Printf plainEnv ⟨[], none, 32, 0⟩ ⟨0⟩ ⟨0⟩ ['A'] =
        ⟨[], .panic .nilDereference⟩ := by
  exact ⟨rfl, rfl⟩

/-- C4 (amended): for every font with a charset (the Ready state), `Release`
returns a font without charset, and `Printf` on it with any position panics
with a nil dereference, before any OpenGL call, exactly when the formatted
string has at least one rune; on the empty formatted string it does not touch
the charset and makes its OpenGL calls with list base 0 and no index. -/
theorem Printf_after_Release {ε : Type} (env : Env ε) (f : Font) (cs : Charset)
    (hready : f.charset = some cs) (x y : Float32) (s : List Char) :
    ∃ g, f.Release.res = .ret g ∧ g.charset = none ∧
      (s ≠ [] → g.Printf env x y s = ⟨[], .panic .nilDereference⟩) ∧
      (s = [] → g.Printf env x y s =
        ⟨[GLCall.setup env.viewport, GLCall.listBase 0,
          GLCall.place x y env.viewport.2.2.2 f.scale, GLCall.callLists 0 [],
          GLCall.restore], .ret g⟩) := by
  refine ⟨{ f with charset := none, textures := [], listbase := 0 }, ?_, rfl, ?_, ?_⟩
  · unfold Font.Release
    rw [hready]
  · intro hs
    obtain ⟨c, t, rfl⟩ := List.exists_cons_of_ne_nil hs
    rfl
  · intro hs
    subst hs
    rfl

/-- C4 (amended) on the font loaded over `[0, 1]` and the string `A`. -/
theorem Printf_after_Release_witness :
    ∃ g, (newFont plainEnv 32 ⟨0, 1, 2⟩).Release.res = .ret g ∧ g.charset = none ∧
      (['A'] ≠ [] → g.Printf plainEnv ⟨0⟩ ⟨0⟩ ['A'] = ⟨[], .panic .nilDereference⟩) ∧
      (['A'] = [] → g.Printf plainEnv ⟨0⟩ ⟨0⟩ ['A'] =
        ⟨[GLCall.setup plainEnv.viewport, GLCall.listBase 0,
          GLCall.place ⟨0⟩ ⟨0⟩ plainEnv.viewport.2.2.2 (newFont plainEnv 32 ⟨0, 1, 2⟩).scale,
          GLCall.callLists 0 [], GLCall.restore], .ret g⟩) :=
  Printf_after_Release plainEnv (newFont plainEnv 32 ⟨0, 1, 2⟩) ⟨0, 1, 2⟩ rfl ⟨0⟩ ⟨0⟩ ['A']

/-- C5: for every font whose charset has `0 ≤ Low ≤ High` (`High` an `int32`)
and every formatted string, `Printf` returns without error and the index list
it passes to `CallLists` has one entry per rune of the string, in string
order, each entry being its rune minus `Low`; an entry lies in `[0, High - Low]`
if and only if its rune lies in `[Low, High]`. -/
theorem Printf_indices {ε : Type} (env : Env ε) (f : Font) (cs : Charset)
    (hcs : f.charset = some cs) (hLow : 0 ≤ cs.Low) (hLH : cs.Low ≤ cs.High)
    (hHigh : cs.High < 2 ^ 31) (x y : Float32) (s : List Char) :
    f.Printf env x y s =
        ⟨[GLCall.setup env.viewport, GLCall.listBase f.listbase,
          GLCall.place x y env.viewport.2.2.2 f.scale,
          GLCall.callLists s.length ((runes s).map (fun r => r - cs.Low)),
          GLCall.restore], .ret f⟩ ∧
      ((runes s).map (fun r => r - cs.Low)).length = s.length ∧
      (∀ i : Nat,
        ((runes s).map (fun r => r - cs.Low))[i]? =
          (s[i]?).map (fun c => (c.toNat : Int) - cs.Low)) ∧
      (∀ r ∈ runes s,
        (0 ≤ r - cs.Low ∧ r - cs.Low ≤ cs.High - cs.Low) ↔ (cs.Low ≤ r ∧ r ≤ cs.High)) := by
  refine ⟨?_, by simp [runes], ?_, ?_⟩
  · have hmap := texIndex_runes cs hLow (by omega) s
    unfold Font.Printf
    dsimp only
    cases s with
    | nil => rfl
    | cons c t =>
      have hr : runes (c :: t) = (c.toNat : Int) :: runes t := rfl
      rw [hr] at hmap ⊢
      simp only [hcs]
      rw [hmap]
      simp [runes]
  · intro i
    simp only [runes, List.map_map, List.getElem?_map]
    rfl
  · intro r _
    constructor <;> intro h <;> omega

/-- C5 on the string `A~` over the range `[66, 90]`: the indices are `-1`
(below the range) and `60` (above it), and the call returns. -/
theorem Printf_indices_witness :
    Font.Printf plainEnv ⟨[1, 2], some ⟨66, 90, 25⟩, 32, 1⟩ ⟨0⟩ ⟨0⟩ ['A', '~'] =
      ⟨[GLCall.setup (0, 0, 640, 480), GLCall.listBase 1, GLCall.place ⟨0⟩ ⟨0⟩ 480 32,
        GLCall.callLists 2 [-1, 60], GLCall.restore],
        .ret ⟨[1, 2], some ⟨66, 90, 25⟩, 32, 1⟩⟩ :=
  (Printf_indices plainEnv ⟨[1, 2], some ⟨66, 90, 25⟩, 32, 1⟩ ⟨66, 90, 25⟩ rfl (by decide)
    (by decide) (by decide) ⟨0⟩ ⟨0⟩ ['A', '~']).1

/-! ## C9: `pow2` -/

/-- C9: `pow2` is called at lines 152-153 only, on the width `w` and the
height `h` of the loaded glyph bounds.  For every glyph with `w ≥ 1` and
`h ≥ 1`, with the floor of the binary logarithm computed exactly at `w` and
`h`: `pow2 n = 2 ^ (⌊log2 n⌋ + 1)` for `n = w` and `n = h`, where
`2 ^ ⌊log2 n⌋ ≤ n`; `n < pow2 n ≤ 2 n`, so the glyph fits in its
`pow2 w` x `pow2 h` texture; the quotient `n / pow2 n` lies in `[1/2, 1)`; when
`n` is a power of two the result is `2 n`; and whenever `makeList` returns a
nil error for the rune, its texture has the size `pow2 w` x `pow2 h` and its
quad is drawn with the texture coordinates `w / pow2 w` and `h / pow2 h`. -/
theorem pow2_glyph_texture {ε : Type} (env : Env ε) (ttf : TTF ε) (f : Font) (r : Int)
    (b : Bounds) (hb : ttf.load f.scale (ttf.index r) = .ok b)
    (hw : 1 ≤ glyphWidth b) (hh : 1 ≤ glyphHeight b)
    (hlw : env.log2 (glyphWidth b) = Nat.log2 (glyphWidth b).toNat)
    (hlh : env.log2 (glyphHeight b) = Nat.log2 (glyphHeight b).toNat) :
    (pow2 env (glyphWidth b) = 2 ^ (Nat.log2 (glyphWidth b).toNat + 1) ∧
      (2 : Int) ^ Nat.log2 (glyphWidth b).toNat ≤ glyphWidth b ∧
      glyphWidth b < pow2 env (glyphWidth b) ∧
      pow2 env (glyphWidth b) ≤ 2 * glyphWidth b ∧
      (1 / 2 : ℚ) ≤ (glyphWidth b : ℚ) / (pow2 env (glyphWidth b) : ℚ) ∧
      (glyphWidth b : ℚ) / (pow2 env (glyphWidth b) : ℚ) < 1 ∧
      (∀ k : Nat, glyphWidth b = 2 ^ k → pow2 env (glyphWidth b) = 2 * glyphWidth b)) ∧
    (pow2 env (glyphHeight b) = 2 ^ (Nat.log2 (glyphHeight b).toNat + 1) ∧
      (2 : Int) ^ Nat.log2 (glyphHeight b).toNat ≤ glyphHeight b ∧
      glyphHeight b < pow2 env (glyphHeight b) ∧
      pow2 env (glyphHeight b) ≤ 2 * glyphHeight b ∧
      (1 / 2 : ℚ) ≤ (glyphHeight b : ℚ) / (pow2 env (glyphHeight b) : ℚ) ∧
      (glyphHeight b : ℚ) / (pow2 env (glyphHeight b) : ℚ) < 1 ∧
      (∀ k : Nat, glyphHeight b = 2 ^ k → pow2 env (glyphHeight b) = 2 * glyphHeight b)) ∧
    (∀ (calls : List GLCall) (g : Font), makeList env ttf f r = ⟨calls, .ret (g, none)⟩ →
      ∃ name id, calls =
        [GLCall.bindTexture name,
          GLCall.texImage2D (pow2 env (glyphWidth b)) (pow2 env (glyphHeight b)),
          GLCall.newList id,
          GLCall.bindTexture name,
          GLCall.quad (roundF32 b.XMin) (roundF32 b.YMin) (glyphWidth b) (glyphHeight b)
            (.val ((glyphWidth b : ℚ) / (pow2 env (glyphWidth b) : ℚ)))
            (.val ((glyphHeight b : ℚ) / (pow2 env (glyphHeight b) : ℚ))),
          GLCall.advance (roundF32 (ttf.advanceWidth f.scale (ttf.index r))),
          GLCall.endList]) := by
  obtain ⟨w1, w2, w3, w4, w5, w6, w7, w8⟩ := pow2_glyphSize env b.XMin b.XMax hw hlw
  obtain ⟨h1, h2, h3, h4, h5, h6, h7, h8⟩ := pow2_glyphSize env b.YMin b.YMax hh hlh
  refine ⟨⟨w1, w2, w3, w4, w6, w7, w8⟩, ⟨h1, h2, h3, h4, h6, h7, h8⟩, ?_⟩
  intro calls g hm
  obtain ⟨-, hcalls⟩ := makeList_ret env ttf f g r calls none hm
  obtain ⟨b', tex, hb', hc⟩ := hcalls rfl
  rw [hb] at hb'
  have hbb : b = b' := Except.ok.inj hb'
  subst hbb
  refine ⟨f.textures.getD tex 0, (f.listbase + tex) % 2 ^ 64, ?_⟩
  rw [hc]
  unfold glyphCalls
  have hx : texCoord (glyphWidth b) (pow2 env (glyphWidth b)) =
      .val ((glyphWidth b : ℚ) / (pow2 env (glyphWidth b) : ℚ)) := w5
  have hy : texCoord (glyphHeight b) (pow2 env (glyphHeight b)) =
      .val ((glyphHeight b : ℚ) / (pow2 env (glyphHeight b) : ℚ)) := h5
  simp only [hx, hy]

/-- C9 on the 10 x 20 glyph box of `plainTTF`: the texture dimensions are
powers of two above the glyph dimensions and at most twice them. -/
theorem pow2_glyph_texture_witness :
    (glyphWidth ⟨0, 0, 10, 20⟩ < pow2 plainEnv (glyphWidth ⟨0, 0, 10, 20⟩) ∧
      pow2 plainEnv (glyphWidth ⟨0, 0, 10, 20⟩) ≤ 2 * glyphWidth ⟨0, 0, 10, 20⟩) ∧
    (glyphHeight ⟨0, 0, 10, 20⟩ < pow2 plainEnv (glyphHeight ⟨0, 0, 10, 20⟩) ∧
      pow2 plainEnv (glyphHeight ⟨0, 0, 10, 20⟩) ≤ 2 * glyphHeight ⟨0, 0, 10, 20⟩) :=
  have h := pow2_glyph_texture plainEnv plainTTF (newFont plainEnv 32 ⟨0, 0, 1⟩) 0
    ⟨0, 0, 10, 20⟩ rfl (by decide) (by decide) rfl rfl
  ⟨⟨h.1.2.2.1, h.1.2.2.2.1⟩, ⟨h.2.1.2.2.1, h.2.1.2.2.2.1⟩⟩

/-! ## C6, C10: the glyph table of the bitmap font -/

namespace bitmap

/-- Entry `i` of `glyphData` is cell `(i mod 32, i div 32)` of a grid of
4 x 8 cells. -/
theorem glyphData_eq_grid :
    glyphData = (List.range 128).map (fun i =>
      (⟨4 * ((i % 32 : Nat) : Int), 8 * ((i / 32 : Nat) : Int), 4, 8, 4⟩ : Glyph)) := by
  decide

/-- Entry `i` of `loadGlyphs k`. -/
theorem loadGlyphs_getElem? (k : Int) (i : Nat) (hi : i < 128) :
    (loadGlyphs k)[i]? =
      some ⟨4 * k * ((i % 32 : Nat) : Int), 8 * k * ((i / 32 : Nat) : Int), 4 * k, 8 * k, 4 * k⟩ := by
  unfold loadGlyphs Charset.Scale
  rw [glyphData_eq_grid]
  simp only [List.map_map, List.getElem?_map, List.getElem?_range hi, Option.map_some',
    Function.comp_apply, Option.some.injEq, Glyph.mk.injEq]
  exact ⟨by ring, by ring, trivial, trivial, trivial⟩

theorem loadGlyphs_length (k : Int) : (loadGlyphs k).length = 128 := by
  unfold loadGlyphs Charset.Scale
  rw [List.length_map]
  rfl

/-- Two cells of width `w` that contain the same coordinate are the same
cell. -/
theorem cell_unique (w : Int) (hw : 0 < w) (a b : Nat) (p : Int)
    (ha₁ : w * a ≤ p) (ha₂ : p < w * a + w) (hb₁ : w * b ≤ p) (hb₂ : p < w * b + w) : a = b := by
  by_contra hne
  rcases Nat.lt_or_gt_of_ne hne with h | h
  · have h' : (a : Int) + 1 ≤ b := by exact_mod_cast h
    have := mul_le_mul_of_nonneg_left h' hw.le
    linarith
  · have h' : (b : Int) + 1 ≤ a := by exact_mod_cast h
    have := mul_le_mul_of_nonneg_left h' hw.le
    linarith

/-- Every coordinate below `w * n` lies in one of the first `n` cells of
width `w`. -/
theorem cell_exists (w : Int) (hw : 0 < w) (n : Nat) (p : Int) (h₀ : 0 ≤ p) (h₁ : p < w * n) :
    ∃ a : Nat, a < n ∧ w * a ≤ p ∧ p < w * a + w := by
  have hq : 0 ≤ p / w := Int.ediv_nonneg h₀ hw.le
  have hdiv := Int.emod_add_ediv p w
  have hm₀ := Int.emod_nonneg p hw.ne'
  have hm₁ := Int.emod_lt_of_pos p hw
  obtain ⟨a, ha⟩ : ∃ a : Nat, p / w = a := ⟨(p / w).toNat, by omega⟩
  rw [ha] at hdiv
  refine ⟨a, ?_, by linarith, by linarith⟩
  by_contra hge
  have h' : (n : Int) ≤ a := by exact_mod_cast Nat.le_of_not_lt hge
  have := mul_le_mul_of_nonneg_left h' hw.le
  linarith

/-- C6: for every positive integer `k`, `loadGlyphs k` has exactly 128
glyphs, and glyph `i` (`i < 128`) has width `4k`, height `8k`, advance `4k` and
offset `(4k (i mod 32), 8k (i div 32))`; every field is `k` times the field
of `glyphData[i]`, and the rectangle is not empty. -/
theorem loadGlyphs_scaled (k : Int) (hk : 0 < k) :
    (loadGlyphs k).length = 128 ∧
      ∀ i : Nat, i < 128 →
        ∃ g g₀ : Glyph, (loadGlyphs k)[i]? = some g ∧ glyphData[i]? = some g₀ ∧
          g.Width = 4 * k ∧ g.Height = 8 * k ∧ g.Advance = 4 * k ∧
          g.X = 4 * k * ((i % 32 : Nat) : Int) ∧ g.Y = 8 * k * ((i / 32 : Nat) : Int) ∧
          g.X = k * g₀.X ∧ g.Y = k * g₀.Y ∧ g.Width = k * g₀.Width ∧
          g.Height = k * g₀.Height ∧ g.Advance = k * g₀.Advance ∧
          0 < g.Width ∧ 0 < g.Height := by
  refine ⟨loadGlyphs_length k, ?_⟩
  intro i hi
  refine ⟨_, ⟨4 * ((i % 32 : Nat) : Int), 8 * ((i / 32 : Nat) : Int), 4, 8, 4⟩,
    loadGlyphs_getElem? k i hi, ?_, rfl, rfl, rfl, rfl, rfl, ?_, ?_, ?_, ?_, ?_, ?_, ?_⟩
  · rw [glyphData_eq_grid, List.getElem?_map, List.getElem?_range hi]
    rfl
  · show 4 * k * ((i % 32 : Nat) : Int) = k * (4 * ((i % 32 : Nat) : Int))
    ring
  · show 8 * k * ((i / 32 : Nat) : Int) = k * (8 * ((i / 32 : Nat) : Int))
    ring
  · show 4 * k = k * 4
    ring
  · show 8 * k = k * 8
    ring
  · show 4 * k = k * 4
    ring
  · show 0 < 4 * k
    omega
  · show 0 < 8 * k
    omega

/-- C6 at scale 1 and scale 2: 128 glyphs, the last one of width, height
and advance 4, 8, 4 at scale 1 and 8, 16, 8 at scale 2. -/
theorem loadGlyphs_scaled_witness :
    ((loadGlyphs 1).length = 128 ∧
      ∃ g, (loadGlyphs 1)[127]? = some g ∧ g.Width = 4 ∧ g.Height = 8 ∧ g.Advance = 4) ∧
    ((loadGlyphs 2).length = 128 ∧
      ∃ g, (loadGlyphs 2)[127]? = some g ∧ g.Width = 8 ∧ g.Height = 16 ∧ g.Advance = 8) := by
  have h1 := loadGlyphs_scaled 1 (by decide)
  have h2 := loadGlyphs_scaled 2 (by decide)
  obtain ⟨g1, -, hg1, -, hw1, hh1, ha1, -⟩ := h1.2 127 (by decide)
  obtain ⟨g2, -, hg2, -, hw2, hh2, ha2, -⟩ := h2.2 127 (by decide)
  exact ⟨⟨h1.1, g1, hg1, hw1.trans rfl, hh1.trans rfl, ha1.trans rfl⟩,
    ⟨h2.1, g2, hg2, hw2.trans rfl, hh2.trans rfl, ha2.trans rfl⟩⟩

/-- C10: for every positive integer `k`, with the 128 x 32 declared in the
IHDR header of `fontImage` and the image of `loadImage` of size
`128k x 32k`: the glyph table of the test configuration has
`High - Low + 1 = 128` entries; every rectangle of `loadGlyphs k` lies inside
the image; the rectangles of two different entries share no pixel; and every
pixel of the image lies in a rectangle. -/
theorem loadGlyphs_tiles_image (k : Int) (hk : 0 < k) :
    ihdrWidth fontImage = 128 ∧ ihdrHeight fontImage = 32 ∧
      loadImageSize k = (128 * k, 32 * k) ∧
      (testConfig k).Low = 0 ∧ (testConfig k).High = 127 ∧
      ((testConfig k).Glyphs.length : Int) = (testConfig k).High - (testConfig k).Low + 1 ∧
      (∀ g ∈ loadGlyphs k, 0 ≤ g.X ∧ g.X + g.Width ≤ (loadImageSize k).1 ∧
        0 ≤ g.Y ∧ g.Y + g.Height ≤ (loadImageSize k).2) ∧
      (∀ (i j : Nat) (g h : Glyph), (loadGlyphs k)[i]? = some g → (loadGlyphs k)[j]? = some h →
        i ≠ j → ∀ px py : Int, ¬ (g.covers px py ∧ h.covers px py)) ∧
      (∀ px py : Int, 0 ≤ px → px < (loadImageSize k).1 → 0 ≤ py → py < (loadImageSize k).2 →
        ∃ g ∈ loadGlyphs k, g.covers px py) := by
  have hW : ihdrWidth fontImage = 128 := by decide
  have hH : ihdrHeight fontImage = 32 := by decide
  have hsize : loadImageSize k = (128 * k, 32 * k) := by
    unfold loadImageSize
    rw [hW, hH]
    rfl
  have hlen := loadGlyphs_length k
  have hidx : ∀ (i : Nat) (g : Glyph), (loadGlyphs k)[i]? = some g → i < 128 ∧
      g = ⟨4 * k * ((i % 32 : Nat) : Int), 8 * k * ((i / 32 : Nat) : Int), 4 * k, 8 * k, 4 * k⟩ := by
    intro i g hg
    have hi : i < 128 := by
      have := (List.getElem?_eq_some_iff.mp hg).1
      omega
    rw [loadGlyphs_getElem? k i hi] at hg
    exact ⟨hi, (Option.some.inj hg).symm⟩
  refine ⟨hW, hH, hsize, rfl, rfl, ?_, ?_, ?_, ?_⟩
  · show (((loadGlyphs k).length : Nat) : Int) = 127 - 0 + 1
    rw [hlen]
    rfl
  · intro g hg
    obtain ⟨i, hi⟩ := List.mem_iff_getElem?.mp hg
    obtain ⟨hi128, rfl⟩ := hidx i g hi
    rw [hsize]
    have hc : ((i % 32 : Nat) : Int) + 1 ≤ 32 := by
      have := Nat.mod_lt i (by norm_num : 32 > 0)
      omega
    have hr : ((i / 32 : Nat) : Int) + 1 ≤ 4 := by
      have : i / 32 < 4 := Nat.div_lt_of_lt_mul (by omega)
      omega
    have hc' := mul_le_mul_of_nonneg_left hc (by omega : (0 : Int) ≤ 4 * k)
    have hr' := mul_le_mul_of_nonneg_left hr (by omega : (0 : Int) ≤ 8 * k)
    have hc0 : (0 : Int) ≤ 4 * k * ((i % 32 : Nat) : Int) := by positivity
    have hr0 : (0 : Int) ≤ 8 * k * ((i / 32 : Nat) : Int) := by positivity
    refine ⟨hc0, ?_, hr0, ?_⟩
    · show 4 * k * ((i % 32 : Nat) : Int) + 4 * k ≤ 128 * k
      linarith
    · show 8 * k * ((i / 32 : Nat) : Int) + 8 * k ≤ 32 * k
      linarith
  · intro i j g h hg hh hij px py hcov
    obtain ⟨-, rfl⟩ := hidx i g hg
    obtain ⟨-, rfl⟩ := hidx j h hh
    obtain ⟨⟨gx₁, gx₂, gy₁, gy₂⟩, ⟨hx₁, hx₂, hy₁, hy₂⟩⟩ := hcov
    have hc := cell_unique (4 * k) (by omega) (i % 32) (j % 32) px gx₁ gx₂ hx₁ hx₂
    have hr := cell_unique (8 * k) (by omega) (i / 32) (j / 32) py gy₁ gy₂ hy₁ hy₂
    apply hij
    rw [← Nat.div_add_mod i 32, ← Nat.div_add_mod j 32, hc, hr]
  · intro px py hx₀ hx₁ hy₀ hy₁
    rw [hsize] at hx₁ hy₁
    dsimp only at hx₁ hy₁
    obtain ⟨c, hc, hcx₁, hcx₂⟩ := cell_exists (4 * k) (by omega) 32 px hx₀
      (by push_cast; linarith)
    obtain ⟨r, hr, hry₁, hry₂⟩ := cell_exists (8 * k) (by omega) 4 py hy₀
      (by push_cast; linarith)
    have hi : 32 * r + c < 128 := by omega
    have hmod : (32 * r + c) % 32 = c := by omega
    have hdiv : (32 * r + c) / 32 = r := by omega
    have hget := loadGlyphs_getElem? k (32 * r + c) hi
    rw [hmod, hdiv] at hget
    exact ⟨_, List.mem_iff_getElem?.mpr ⟨_, hget⟩, hcx₁, hcx₂, hry₁, hry₂⟩

/-- C10 at scale 2: the 256 x 64 image, and the pixel `(9, 17)` in the
rectangle of glyph 33 only. -/
theorem loadGlyphs_tiles_image_witness :
    loadImageSize 2 = (128 * 2, 32 * 2) ∧
      (∃ g ∈ loadGlyphs 2, g.covers 9 17) :=
  have h := loadGlyphs_tiles_image 2 (by decide)
  ⟨h.2.2.1, h.2.2.2.2.2.2.2.2 9 17 (by decide) (by decide) (by decide) (by decide)⟩

end bitmap

end gltext
